import Mathlib

/-!
Verification development for the Banqi ("dark chess") repository.

The repository contains two renderings of the socket server (referred to
below as the part_001 server, which keeps a persistent player→color map,
and the part_000 server, an older rendering without that map), a
client-side rules class `Banqi` (part_002), and two client UIs.

This file gives a shallow embedding of those sources:
  * the board/piece data model shared by all renderings;
  * the part_001 server's `move` handler (namespace `Server1`);
  * the part_000 server's `move` handler (namespace `Server0`);
  * the part_002 `Banqi` class (namespace `Banqi`).
JavaScript `null`/`undefined` cells are modelled as `Option Piece`;
JavaScript array reads out of range yield `none` (undefined is falsy),
and array writes at an index at or past the end pad the row with empty
slots exactly as a JS array assignment does.
-/

/-- Piece color, `'red'` / `'black'` in the source. -/
inductive Color where
  | red
  | black
deriving DecidableEq

/-- The seven Banqi piece types, as in the `pieceTypes` tables of the source. -/
inductive PieceType where
  | GENERAL
  | ADVISOR
  | ELEPHANT
  | CHARIOT
  | HORSE
  | CANNON
  | SOLDIER
deriving DecidableEq

/-- A piece object `{ type, color, rank, faceUp }` as stored in board cells. -/
structure Piece where
  ptype : PieceType
  color : Color
  rank : Nat
  faceUp : Bool
deriving DecidableEq

/-- The ranks assigned by the `pieceTypes` tables (GENERAL 7 ... SOLDIER 1). -/
def rankOf : PieceType → Nat
  | .GENERAL => 7
  | .ADVISOR => 6
  | .ELEPHANT => 5
  | .CHARIOT => 4
  | .HORSE => 3
  | .CANNON => 2
  | .SOLDIER => 1

/-- The opposite color (`color === 'red' ? 'black' : 'red'` on a known color). -/
def opp : Color → Color
  | .red => .black
  | .black => .red

/-- A board is a list of rows; each row is a list of cells, a cell holding
at most one piece.  The generated boards are 4 rows of 8 cells. -/
def Board : Type := List (List (Option Piece))

instance : DecidableEq Board := by
  unfold Board
  infer_instance

/-- List lookup by index, `l[n]` in JS: `none` when the index is past the end. -/
def nth {α : Type} : List α → Nat → Option α
  | [], _ => none
  | a :: _, 0 => some a
  | _ :: l, n + 1 => nth l n

/-- List update at an index that is known to be in range (plain JS
assignment to an existing slot); out of range it leaves the list unchanged. -/
def setNth {α : Type} : List α → Nat → α → List α
  | [], _, _ => []
  | _ :: l, 0, v => v :: l
  | a :: l, n + 1, v => a :: setNth l n v

/-- Reading a cell of a row: JS `row[c]`, where an out-of-range read gives
`undefined`, which every rendering treats the same as an empty cell. -/
def rowGet (row : List (Option Piece)) (c : Nat) : Option Piece :=
  (nth row c).getD none

/-- Writing a cell of a row: JS `row[c] = v`.  When `c` is at or past the
end of the array, JS extends the array, leaving empty slots in between;
those slots read back as `undefined`, i.e. as empty cells. -/
def rowSetJS : List (Option Piece) → Nat → Option Piece → List (Option Piece)
  | [], 0, v => [v]
  | [], n + 1, v => none :: rowSetJS [] n v
  | _ :: l, 0, v => v :: l
  | a :: l, n + 1, v => a :: rowSetJS l n v

/-- `board[r][c]` as a read.  An out-of-range row index makes `board[r]`
`undefined` in JS and a subsequent member access throws; the modelled code
paths only read rows 0..3 of a 4-row board (theorems about the handler
carry explicit row bounds where the source would otherwise throw). -/
def getCell (b : Board) (r c : Nat) : Option Piece :=
  match nth b r with
  | none => none
  | some row => rowGet row c

/-- `board[r][c] = v` as an update of the board value. -/
def setCell (b : Board) (r c : Nat) (v : Option Piece) : Board :=
  match nth b r with
  | none => b
  | some row => setNth b r (rowSetJS row c v)

/-- `Math.abs(x - y)` on the natural-number coordinates of the source. -/
def absDiff (a b : Nat) : Nat := (a - b) + (b - a)

/-- The `isOrthogonal` / `isOrthogonalMove` test used by every rendering:
a move of exactly one square horizontally or vertically. -/
def isOrthogonalMove (fromRow fromCol toRow toCol : Nat) : Bool :=
  (absDiff toRow fromRow = 1 ∧ absDiff toCol fromCol = 0) ∨
  (absDiff toRow fromRow = 0 ∧ absDiff toCol fromCol = 1)

/-- `canCapture(attacker, defender)` of both servers and of the `Banqi`
class: same color never; SOLDIER beats GENERAL; GENERAL never beats
SOLDIER; otherwise compare ranks.  (The part_001 rendering adds logging
and null guards around the identical logic; the model takes pieces.) -/
def canCapture (attacker defender : Piece) : Bool :=
  if attacker.color = defender.color then false
  else if attacker.ptype = .SOLDIER ∧ defender.ptype = .GENERAL then true
  else if attacker.ptype = .GENERAL ∧ defender.ptype = .SOLDIER then false
  else attacker.rank ≥ defender.rank

/-- Occupancy of a cell, `!!board[r][c]`. -/
def occupiedAt (b : Board) (r c : Nat) : Bool :=
  (getCell b r c).isSome

/-- The ascending screen-counting loop of `cannonCanCapture`:
`n` cells starting at index `s` and walking by `+1`. -/
def walkUp (f : Nat → Bool) : Nat → Nat → Nat
  | 0, _ => 0
  | n + 1, c => (if f c then 1 else 0) + walkUp f n (c + 1)

/-- The descending screen-counting loop of `cannonCanCapture`:
`n` cells starting at index `s` and walking by `-1`. -/
def walkDown (f : Nat → Bool) : Nat → Nat → Nat
  | 0, _ => 0
  | n + 1, c => (if f c then 1 else 0) + walkDown f n (c - 1)

/-- `cannonCanCapture(board, fromRow, fromCol, toRow, toCol)` of both
servers (their texts are identical): reject diagonals, then walk the
cells strictly between source and target along the shared row or column
in the direction of travel and demand exactly one occupied cell.  The
direction `dir = to > from ? 1 : -1` and the loop bound `c !== to` of the
source visit exactly the strictly-between indices; the count of a walk of
`|to - from| - 1` steps embeds that loop.  (For identical source and
target cells the source loop would never terminate; the model's empty
walk then yields 0 screens and a `false` verdict, and no modelled call
site reaches that case.) -/
def cannonCanCapture (b : Board) (fromRow fromCol toRow toCol : Nat) : Bool :=
  if fromRow ≠ toRow ∧ fromCol ≠ toCol then false
  else if fromRow = toRow then
    (if fromCol < toCol then
       walkUp (fun c => occupiedAt b fromRow c) (toCol - fromCol - 1) (fromCol + 1)
     else
       walkDown (fun c => occupiedAt b fromRow c) (fromCol - toCol - 1) (fromCol - 1)) = 1
  else
    (if fromRow < toRow then
       walkUp (fun r => occupiedAt b r fromCol) (toRow - fromRow - 1) (fromRow + 1)
     else
       walkDown (fun r => occupiedAt b r fromCol) (fromRow - toRow - 1) (fromRow - 1)) = 1

namespace Server1

/-!
The part_001 server's state for one Banqi room.  `banqiGames.get(room)`
yields a `GameStateS`; the server-global `playerColors` map is modelled
alongside it (only this room's two sockets ever appear as keys in the
modelled flows), giving `ServerState`.
-/

/-- The `banqiGames` entry of a room. -/
structure GameStateS where
  board : Board
  firstPieceRevealed : Bool
  firstPieceColor : Option Color
  firstRevealPlayerId : Option String
  currentPlayer : Option Color
  turnCount : Nat
  playerTurn : Option String
  revealedPieces : List (Nat × Nat)
  player1 : Option String
  player2 : Option String
deriving DecidableEq

/-- The room's game state together with the `playerColors` map. -/
structure ServerState where
  game : GameStateS
  playerColors : List (String × Color)
deriving DecidableEq

/-- `playerColors.get(id)` on the association-list model of the JS `Map`
(keys are unique, so first-match lookup is the map lookup). -/
def pcGet : List (String × Color) → String → Option Color
  | [], _ => none
  | e :: m, k => if e.1 = k then some e.2 else pcGet m k

/-- `playerColors.set(id, color)`: overwrite the entry if the key is
present, else append a new entry, as a JS `Map.set` does. -/
def pcSet : List (String × Color) → String → Color → List (String × Color)
  | [], k, v => [(k, v)]
  | e :: m, k, v => if e.1 = k then (k, v) :: m else e :: pcSet m k v

/-- The payload of a `move` intent: `data.fromRow` etc. -/
structure MoveData where
  fromRow : Nat
  fromCol : Nat
  toRow : Nat
  toCol : Nat
deriving DecidableEq

/-- `data.fromRow === data.toRow && data.fromCol === data.toCol`. -/
def isReveal (d : MoveData) : Prop := d.fromRow = d.toRow ∧ d.fromCol = d.toCol

instance (d : MoveData) : Decidable (isReveal d) := by
  unfold isReveal
  infer_instance

/-- The socket emissions of the handler.  `gameStateUpdate` and `moveOk`
are `io.to(room).emit` room broadcasts reaching both participants;
`moveRejected` is a `socket.emit` unicast back to the requester
(carrying `result.valid = false` and the "Not your turn" message). -/
inductive Emit where
  | gameStateUpdate (board : Board) (currentPlayer : Option Color) (playerTurn : Option String)
  | moveOk (playerId : String) (firstPiece : Option Color) (currentPlayer : Option Color)
      (captured : Option Piece) (playerTurn : Option String)
  | moveRejected (playerId : String)
deriving DecidableEq

/-- The result of one `socket.on('move')` invocation: the state the room
is left in, the emitted messages in order, and the handler's `moveValid`. -/
structure MoveResult where
  st : ServerState
  emits : List Emit
  valid : Bool
deriving DecidableEq

/-- `socket.id === gameState.player1 ? gameState.player2 : gameState.player1`. -/
def otherOf (gs : GameStateS) (me : String) : Option String :=
  if gs.player1 = some me then gs.player2 else gs.player1

/-- The toggle `currentPlayer === 'red' ? 'black' : 'red'` applied to the
nullable `currentPlayer` field (`null === 'red'` is false in JS). -/
def toggleJS (c : Option Color) : Option Color :=
  if c = some .red then some .black else some .red

/-- What a branch of the validation left behind when it set `moveValid`:
the mutated state plus the `firstPiece` and `capturedPiece` locals. -/
structure BranchOut where
  st : ServerState
  firstPiece : Option Color
  captured : Option Piece
deriving DecidableEq

/-- The `isFirstReveal` branch (part_001 lines 338-377): on a face-down
piece it records the first reveal, flips the piece, appends to
`revealedPieces`, binds the revealer to the piece's color and the other
player to the opposite color in `playerColors`, sets `currentPlayer` to
the revealed color and hands `playerTurn` to the other player.
`none` means the branch left `moveValid` false. -/
def firstRevealBranch (s : ServerState) (me : String) (d : MoveData) : Option BranchOut :=
  match getCell s.game.board d.toRow d.toCol with
  | none => none
  | some p =>
    if p.faceUp then none
    else
      let gs := s.game
      let oid := otherOf gs me
      let colors1 := pcSet s.playerColors me p.color
      let colors2 := match oid with
        | some o => pcSet colors1 o (opp p.color)
        | none => colors1
      some {
        st := {
          game := { gs with
            firstPieceRevealed := true
            firstPieceColor := some p.color
            firstRevealPlayerId := some me
            turnCount := gs.turnCount + 1
            board := setCell gs.board d.toRow d.toCol (some { p with faceUp := true })
            revealedPieces := gs.revealedPieces ++ [(d.toRow, d.toCol)]
            currentPlayer := some p.color
            playerTurn := oid }
          playerColors := colors2 }
        firstPiece := some p.color
        captured := none }

/-- The subsequent-reveal branch (part_001 lines 378-403): flip the
face-down piece, toggle `currentPlayer`, hand `playerTurn` to the other
player.  `playerColors` is not touched. -/
def laterRevealBranch (s : ServerState) (me : String) (d : MoveData) : Option BranchOut :=
  match getCell s.game.board d.toRow d.toCol with
  | none => none
  | some p =>
    if p.faceUp then none
    else
      let gs := s.game
      some {
        st := { s with
          game := { gs with
            board := setCell gs.board d.toRow d.toCol (some { p with faceUp := true })
            revealedPieces := gs.revealedPieces ++ [(d.toRow, d.toCol)]
            turnCount := gs.turnCount + 1
            currentPlayer := toggleJS gs.currentPlayer
            playerTurn := otherOf gs me } }
        firstPiece := none
        captured := none }

/-- The board after `board[toRow][toCol] = sourcePiece; board[fromRow][fromCol] = null`. -/
def moveBoard (b : Board) (d : MoveData) (sp : Piece) : Board :=
  setCell (setCell b d.toRow d.toCol (some sp)) d.fromRow d.fromCol none

/-- The regular-move branch (part_001 lines 404-505): the source piece
must exist, be face-up, match the requester's assigned color, and it must
be the requester's turn; a CANNON captures a face-up enemy piece behind
exactly one screen or steps to an adjacent empty cell; any other piece
steps to an adjacent empty cell or captures an adjacent face-up enemy
piece subject to `canCapture`. -/
def regularMoveBranch (s : ServerState) (me : String) (d : MoveData) : Option BranchOut :=
  let gs := s.game
  match getCell gs.board d.fromRow d.fromCol with
  | none => none
  | some sp =>
    if sp.faceUp = true ∧ pcGet s.playerColors me = some sp.color ∧ gs.playerTurn = some me then
      if sp.ptype = .CANNON then
        match getCell gs.board d.toRow d.toCol with
        | some tp =>
          if tp.faceUp = true ∧ tp.color ≠ sp.color then
            if cannonCanCapture gs.board d.fromRow d.fromCol d.toRow d.toCol then
              some { st := { s with game := { gs with board := moveBoard gs.board d sp } }
                     firstPiece := none
                     captured := some tp }
            else none
          else none
        | none =>
          if isOrthogonalMove d.fromRow d.fromCol d.toRow d.toCol then
            some { st := { s with game := { gs with board := moveBoard gs.board d sp } }
                   firstPiece := none
                   captured := none }
          else none
      else
        if isOrthogonalMove d.fromRow d.fromCol d.toRow d.toCol then
          match getCell gs.board d.toRow d.toCol with
          | none =>
            some { st := { s with game := { gs with board := moveBoard gs.board d sp } }
                   firstPiece := none
                   captured := none }
          | some tp =>
            if tp.faceUp = true ∧ tp.color ≠ sp.color then
              if canCapture sp tp then
                some { st := { s with game := { gs with board := moveBoard gs.board d sp } }
                       firstPiece := none
                       captured := some tp }
              else none
            else none
        else none
    else none

/-- The `if (moveValid)` block (part_001 lines 507-529): increment
`turnCount` again, hand `playerTurn` to the other player, and set
`currentPlayer` to that player's assigned color from `playerColors`. -/
def finishValid (s : ServerState) (me : String) : ServerState :=
  let gs := s.game
  let oid := otherOf gs me
  let nextColor := match oid with
    | some o => pcGet s.playerColors o
    | none => none
  { s with game := { gs with
      turnCount := gs.turnCount + 1
      playerTurn := oid
      currentPlayer := nextColor } }

/-- The three-way dispatch of the validation code: `isFirstReveal`
(a reveal while nothing is yet revealed), a later reveal, or a regular
move. -/
def moveBranch (s : ServerState) (me : String) (d : MoveData) : Option BranchOut :=
  if isReveal d ∧ s.game.firstPieceRevealed = false then firstRevealBranch s me d
  else if isReveal d then laterRevealBranch s me d
  else regularMoveBranch s me d

/-- One invocation of the part_001 `socket.on('move')` handler on a room
whose game state exists.  The handler first broadcasts the current state
to the room unconditionally, then rejects with a unicast if it is not the
requester's socket turn, then runs the first-reveal / later-reveal /
regular-move validation branch, and on `moveValid` runs the finishing
block and broadcasts the move result and the new state. -/
def serverMove (s : ServerState) (me : String) (d : MoveData) : MoveResult :=
  let gs := s.game
  let preGsu := Emit.gameStateUpdate gs.board gs.currentPlayer gs.playerTurn
  if gs.playerTurn ≠ some me then
    { st := s, emits := [preGsu, Emit.moveRejected me], valid := false }
  else
    match moveBranch s me d with
    | none => { st := s, emits := [preGsu], valid := false }
    | some out =>
      let s2 := finishValid out.st me
      { st := s2
        emits := [preGsu,
          Emit.moveOk me out.firstPiece s2.game.currentPlayer out.captured s2.game.playerTurn,
          Emit.gameStateUpdate s2.game.board s2.game.currentPlayer s2.game.playerTurn]
        valid := true }

end Server1

namespace Server0

/-!
The part_000 server rendering: same room state shape and same `move`
handler skeleton as part_001, but with no `playerColors` map.  Its
regular-move gate compares the source piece's color to
`gameState.currentPlayer`, and its `if (moveValid)` block toggles
`currentPlayer` by color instead of looking the next player up in a map.
The record type of a room state and the emission/result types are shared
with the part_001 model (the JS objects have the same fields).
-/

open Server1 (GameStateS MoveData Emit otherOf toggleJS isReveal moveBoard)

/-- The result of one part_000 `socket.on('move')` invocation. -/
structure MoveResult0 where
  st : GameStateS
  emits : List Emit
  valid : Bool
deriving DecidableEq

/-- What a part_000 validation branch left behind when it set `moveValid`. -/
structure BranchOut0 where
  st : GameStateS
  firstPiece : Option Color
  captured : Option Piece
deriving DecidableEq

/-- The part_000 `isFirstReveal` branch (lines 296-326): record the first
reveal, flip the piece, set `currentPlayer` to the revealed piece's
color and hand `playerTurn` to the other player.  No color binding map
exists in this rendering. -/
def firstRevealBranch0 (gs : GameStateS) (me : String) (d : MoveData) : Option BranchOut0 :=
  match getCell gs.board d.toRow d.toCol with
  | none => none
  | some p =>
    if p.faceUp then none
    else
      some {
        st := { gs with
          firstPieceRevealed := true
          firstPieceColor := some p.color
          firstRevealPlayerId := some me
          turnCount := gs.turnCount + 1
          board := setCell gs.board d.toRow d.toCol (some { p with faceUp := true })
          revealedPieces := gs.revealedPieces ++ [(d.toRow, d.toCol)]
          currentPlayer := some p.color
          playerTurn := otherOf gs me }
        firstPiece := some p.color
        captured := none }

/-- The part_000 subsequent-reveal branch (lines 327-352): flip the
face-down piece, toggle `currentPlayer`, hand `playerTurn` to the other
player. -/
def laterRevealBranch0 (gs : GameStateS) (me : String) (d : MoveData) : Option BranchOut0 :=
  match getCell gs.board d.toRow d.toCol with
  | none => none
  | some p =>
    if p.faceUp then none
    else
      some {
        st := { gs with
          board := setCell gs.board d.toRow d.toCol (some { p with faceUp := true })
          revealedPieces := gs.revealedPieces ++ [(d.toRow, d.toCol)]
          turnCount := gs.turnCount + 1
          currentPlayer := toggleJS gs.currentPlayer
          playerTurn := otherOf gs me }
        firstPiece := none
        captured := none }

/-- The part_000 regular-move branch (lines 353-398): the source piece
must exist, be face-up and match `gameState.currentPlayer`; cannon and
non-cannon cases as in part_001, except that the non-cannon capture test
is `targetPiece.faceUp && canCapture(sourcePiece, targetPiece)` (the
color comparison lives inside `canCapture` here). -/
def regularMoveBranch0 (gs : GameStateS) (_me : String) (d : MoveData) : Option BranchOut0 :=
  match getCell gs.board d.fromRow d.fromCol with
  | none => none
  | some sp =>
    if sp.faceUp = true ∧ some sp.color = gs.currentPlayer then
      if sp.ptype = .CANNON then
        match getCell gs.board d.toRow d.toCol with
        | some tp =>
          if tp.faceUp = true ∧ tp.color ≠ sp.color ∧
              cannonCanCapture gs.board d.fromRow d.fromCol d.toRow d.toCol = true then
            some { st := { gs with board := moveBoard gs.board d sp }
                   firstPiece := none
                   captured := some tp }
          else none
        | none =>
          if isOrthogonalMove d.fromRow d.fromCol d.toRow d.toCol then
            some { st := { gs with board := moveBoard gs.board d sp }
                   firstPiece := none
                   captured := none }
          else none
      else
        if isOrthogonalMove d.fromRow d.fromCol d.toRow d.toCol then
          match getCell gs.board d.toRow d.toCol with
          | none =>
            some { st := { gs with board := moveBoard gs.board d sp }
                   firstPiece := none
                   captured := none }
          | some tp =>
            if tp.faceUp = true ∧ canCapture sp tp = true then
              some { st := { gs with board := moveBoard gs.board d sp }
                     firstPiece := none
                     captured := some tp }
            else none
        else none
    else none

/-- The part_000 `if (moveValid)` block (lines 401-408): increment
`turnCount` again, toggle `currentPlayer` again by color, and hand
`playerTurn` to the other player. -/
def finishValid0 (gs : GameStateS) (me : String) : GameStateS :=
  { gs with
    turnCount := gs.turnCount + 1
    currentPlayer := toggleJS gs.currentPlayer
    playerTurn := otherOf gs me }

/-- The part_000 three-way validation dispatch, as in part_001. -/
def moveBranch0 (gs : GameStateS) (me : String) (d : MoveData) : Option BranchOut0 :=
  if isReveal d ∧ gs.firstPieceRevealed = false then firstRevealBranch0 gs me d
  else if isReveal d then laterRevealBranch0 gs me d
  else regularMoveBranch0 gs me d

/-- One invocation of the part_000 `socket.on('move')` handler: same
skeleton as part_001 (unconditional room broadcast, unicast not-your-turn
rejection, validation branch, finishing block plus broadcasts). -/
def serverMove0 (gs : GameStateS) (me : String) (d : MoveData) : MoveResult0 :=
  let preGsu := Emit.gameStateUpdate gs.board gs.currentPlayer gs.playerTurn
  if gs.playerTurn ≠ some me then
    { st := gs, emits := [preGsu, Emit.moveRejected me], valid := false }
  else
    match moveBranch0 gs me d with
    | none => { st := gs, emits := [preGsu], valid := false }
    | some out =>
      let g2 := finishValid0 out.st me
      { st := g2
        emits := [preGsu,
          Emit.moveOk me out.firstPiece g2.currentPlayer out.captured g2.playerTurn,
          Emit.gameStateUpdate g2.board g2.currentPlayer g2.playerTurn]
        valid := true }

end Server0

namespace Banqi

/-!
The client-side rules class `Banqi` of part_002.  Methods that return a
JS boolean validity flag while mutating `this` are modelled as functions
from the game state to `Option` of the new state (`none` = `return
false`, no mutation).  The purely visual fields `selectedPiece` and
`validMoves` of the constructor are never read by the modelled methods
and are omitted.
-/

/-- The `lastMove` record: `{type:'reveal'|'move'|'capture', ...}`. -/
inductive LastMove where
  | revealM (row col : Nat)
  | moveM (fromRow fromCol toRow toCol : Nat)
  | captureM (fromRow fromCol toRow toCol : Nat)
deriving DecidableEq

/-- The mutable state of a `Banqi` instance. -/
structure BanqiState where
  board : Board
  currentPlayer : Color
  gameActive : Bool
  winner : Option Color
  turnCount : Nat
  lastMove : Option LastMove
deriving DecidableEq

/-- `isValidPosition(row, col)`: inside the 4×8 grid (natural-number
coordinates make the `>= 0` half automatic). -/
def isValidPosition (row col : Nat) : Bool :=
  row < 4 ∧ col < 8

/-- `isValidPosition` on the signed coordinates that the direction
offsets of `getValidMoves` produce. -/
def isValidPositionI (row col : Int) : Bool :=
  0 ≤ row ∧ row < 4 ∧ 0 ≤ col ∧ col < 8

/-- Board read at signed coordinates (guarded by `isValidPositionI` at
every call site, exactly as in the source). -/
def getCellI (b : Board) (r c : Int) : Option Piece :=
  if 0 ≤ r ∧ 0 ≤ c then getCell b r.toNat c.toNat else none

/-- Number of face-up pieces of a color, as counted by the first loop of
`checkGameOver` (`piece && piece.faceUp` then sorted by color). -/
def faceUpCount (b : Board) (col : Color) : Nat :=
  (List.flatten b).countP (fun cell =>
    match cell with
    | some p => p.faceUp && decide (p.color = col)
    | none => false)

/-- The four direction offsets of `getValidMoves`: up, right, down, left. -/
def directions : List (Int × Int) := [(-1, 0), (0, 1), (1, 0), (0, -1)]

/-- The cannon jump scan of `getValidMoves`: starting just past the
adjacent occupied cell, advance in the fixed direction while the next
cell is on the board; the first occupied cell found is pushed as a
capture if it is a face-up enemy piece, and a second occupied cell stops
the scan.  The `while` loop runs at most 8 iterations on a 4×8 board
(each step moves one cell further in a fixed direction), so a fuel of 12
never runs out before the on-board guard fails. -/
def cannonScan (s : BanqiState) (dr dc : Int) : Int → Int → Bool → Nat → List (Nat × Nat)
  | _, _, _, 0 => []
  | jr, jc, screenFound, fuel + 1 =>
    if isValidPositionI (jr + dr) (jc + dc) = false then []
    else
      let r2 := jr + dr
      let c2 := jc + dc
      match getCellI s.board r2 c2 with
      | some jt =>
        if screenFound then []
        else
          (if jt.faceUp = true ∧ jt.color ≠ s.currentPlayer then [(r2.toNat, c2.toNat)]
           else [])
          ++ cannonScan s dr dc r2 c2 true fuel
      | none => cannonScan s dr dc r2 c2 screenFound fuel

/-- The moves contributed by one direction in `getValidMoves`: an empty
adjacent cell is always a destination; an occupied adjacent cell starts
the cannon jump scan for a CANNON, or is an adjacent capture candidate
for any other piece. -/
def dirMoves (s : BanqiState) (p : Piece) (row col : Nat) (dr dc : Int) : List (Nat × Nat) :=
  let nr : Int := (row : Int) + dr
  let nc : Int := (col : Int) + dc
  if isValidPositionI nr nc = false then []
  else
    match getCellI s.board nr nc with
    | none => [(nr.toNat, nc.toNat)]
    | some t =>
      if p.ptype = .CANNON then
        cannonScan s dr dc nr nc false 12
      else if t.faceUp = true ∧ t.color ≠ s.currentPlayer ∧ canCapture p t = true then
        [(nr.toNat, nc.toNat)]
      else []

/-- `getValidMoves(row, col)`: empty unless the cell holds a face-up
piece of the current player; otherwise the destinations collected over
the four directions in order. -/
def getValidMoves (s : BanqiState) (row col : Nat) : List (Nat × Nat) :=
  match getCell s.board row col with
  | none => []
  | some p =>
    if p.faceUp = false ∨ p.color ≠ s.currentPlayer then []
    else List.flatten (directions.map (fun d => dirMoves s p row col d.1 d.2))

/-- All 32 cell coordinates in the row-major order of the scans. -/
def allCells : List (Nat × Nat) :=
  List.flatten ((List.range 4).map (fun r => (List.range 8).map (fun c => (r, c))))

/-- The `hasValidMoves` scan of `checkGameOver`: some cell holds a
face-down piece, or a face-up piece of the current player with a
non-empty `getValidMoves` result. -/
def hasValidMovesScan (s : BanqiState) : Bool :=
  allCells.any (fun rc =>
    match getCell s.board rc.1 rc.2 with
    | none => false
    | some p =>
      if p.faceUp = false then true
      else if p.color = s.currentPlayer then decide (getValidMoves s rc.1 rc.2 ≠ [])
      else false)

/-- `checkGameOver()`: a color with zero face-up pieces loses; otherwise
the current player loses if the scan finds no available action.  The
returned state carries the `gameActive`/`winner` mutations. -/
def checkGameOver (s : BanqiState) : BanqiState :=
  let redPieces := faceUpCount s.board .red
  let blackPieces := faceUpCount s.board .black
  if redPieces = 0 then { s with gameActive := false, winner := some .black }
  else if blackPieces = 0 then { s with gameActive := false, winner := some .red }
  else if hasValidMovesScan s = false then
    { s with gameActive := false, winner := some (opp s.currentPlayer) }
  else s

/-- `revealPiece(row, col)`: flip a face-down piece; the very first
reveal (`turnCount === 0`) sets `currentPlayer` to the revealed piece's
color, later reveals switch the player; `turnCount` increments; no
terminal check runs here. -/
def revealPiece (s : BanqiState) (row col : Nat) : Option BanqiState :=
  if isValidPosition row col = false then none
  else
    match getCell s.board row col with
    | none => none
    | some p =>
      if p.faceUp then none
      else
        let b2 := setCell s.board row col (some { p with faceUp := true })
        if s.turnCount = 0 then
          some { s with
            board := b2
            currentPlayer := p.color
            turnCount := s.turnCount + 1
            lastMove := some (.revealM row col) }
        else
          some { s with
            board := b2
            currentPlayer := opp s.currentPlayer
            turnCount := s.turnCount + 1
            lastMove := some (.revealM row col) }

/-- `board[toRow][toCol] = board[fromRow][fromCol]; board[fromRow][fromCol] = null`. -/
def moveBoardB (b : Board) (fromRow fromCol toRow toCol : Nat) : Board :=
  setCell (setCell b toRow toCol (getCell b fromRow fromCol)) fromRow fromCol none

/-- The screen count of `handleCannonMove`: the source walks a single
loop with direction pair `(rowDir, colDir)`; on the straight lines that
reach it this walks exactly one axis, embedded here per axis (for equal
source and target the source loop body never runs and the count is 0). -/
def screenCount2 (b : Board) (fromRow fromCol toRow toCol : Nat) : Nat :=
  if fromRow = toRow then
    (if fromCol < toCol then
       walkUp (fun c => occupiedAt b fromRow c) (toCol - fromCol - 1) (fromCol + 1)
     else
       walkDown (fun c => occupiedAt b fromRow c) (fromCol - toCol - 1) (fromCol - 1))
  else
    (if fromRow < toRow then
       walkUp (fun r => occupiedAt b r fromCol) (toRow - fromRow - 1) (fromRow + 1)
     else
       walkDown (fun r => occupiedAt b r fromCol) (fromRow - toRow - 1) (fromRow - 1))

/-- `handleCannonMove(fromRow, fromCol, toRow, toCol)`: an empty target
is an ordinary one-square move (with no terminal check afterwards!); a
capture demands a straight line, exactly one screen, and a face-up enemy
target, and is followed by `checkGameOver`. -/
def handleCannonMove (s : BanqiState) (fromRow fromCol toRow toCol : Nat) : Option BanqiState :=
  match getCell s.board toRow toCol with
  | none =>
    if isOrthogonalMove fromRow fromCol toRow toCol = false then none
    else
      some { s with
        board := moveBoardB s.board fromRow fromCol toRow toCol
        currentPlayer := opp s.currentPlayer
        turnCount := s.turnCount + 1
        lastMove := some (.moveM fromRow fromCol toRow toCol) }
  | some tp =>
    if fromRow ≠ toRow ∧ fromCol ≠ toCol then none
    else if screenCount2 s.board fromRow fromCol toRow toCol ≠ 1 then none
    else if tp.faceUp = false then none
    else if tp.color = s.currentPlayer then none
    else
      some (checkGameOver { s with
        board := moveBoardB s.board fromRow fromCol toRow toCol
        currentPlayer := opp s.currentPlayer
        turnCount := s.turnCount + 1
        lastMove := some (.captureM fromRow fromCol toRow toCol) })

/-- `movePiece(fromRow, fromCol, toRow, toCol)`: bounds, source checks,
the one-square orthogonality gate (which in this rendering also precedes
the CANNON dispatch), the capture checks, then the move followed by
`checkGameOver`. -/
def movePiece (s : BanqiState) (fromRow fromCol toRow toCol : Nat) : Option BanqiState :=
  if (isValidPosition fromRow fromCol && isValidPosition toRow toCol) = false then none
  else
    match getCell s.board fromRow fromCol with
    | none => none
    | some sp =>
      if sp.faceUp = false then none
      else if sp.color ≠ s.currentPlayer then none
      else if isOrthogonalMove fromRow fromCol toRow toCol = false then none
      else if sp.ptype = .CANNON then handleCannonMove s fromRow fromCol toRow toCol
      else
        let s2 : BanqiState := { s with
          board := moveBoardB s.board fromRow fromCol toRow toCol
          currentPlayer := opp s.currentPlayer
          turnCount := s.turnCount + 1
          lastMove := some (.moveM fromRow fromCol toRow toCol) }
        match getCell s.board toRow toCol with
        | some tp =>
          if tp.faceUp = false then none
          else if tp.color = s.currentPlayer then none
          else if canCapture sp tp = false then none
          else some (checkGameOver s2)
        | none => some (checkGameOver s2)

/-- `makeMove(fromRow, fromCol, toRow, toCol)`: no moves once the game is
inactive; equal source and target is a reveal, otherwise a move. -/
def makeMove (s : BanqiState) (fromRow fromCol toRow toCol : Nat) : Option BanqiState :=
  if s.gameActive = false then none
  else if fromRow = toRow ∧ fromCol = toCol then revealPiece s toRow toCol
  else movePiece s fromRow fromCol toRow toCol

end Banqi

/-!
Specification-side definitions and the concrete states used by the
witnesses and counterexamples below.
-/

/-- Specification-side count of occupied cells strictly between two
indices on a line of length L: the cells x with lo < x < hi that hold a
piece. -/
def lineOccCount (f : Nat → Bool) (L lo hi : Nat) : Nat :=
  ((Finset.range L).filter (fun x => lo < x ∧ x < hi ∧ f x = true)).card

/-- Specification-side count of the occupied cells strictly between two
same-line board cells (the candidate screens of a cannon capture),
written from the spec's words, to be compared with the walking loop of
cannonCanCapture. -/
def betweenOccCount (b : Board) (fromRow fromCol toRow toCol : Nat) : Nat :=
  if fromRow = toRow then
    lineOccCount (fun c => occupiedAt b fromRow c) 8 (min fromCol toCol) (max fromCol toCol)
  else
    lineOccCount (fun r => occupiedAt b r fromCol) 4 (min fromRow toRow) (max fromRow toRow)

/-- An empty board row. -/
def emptyRow : List (Option Piece) := [none, none, none, none, none, none, none, none]

/-- A piece with the rank its type carries in the generated boards. -/
def mkP (t : PieceType) (c : Color) (f : Bool) : Option Piece :=
  some { ptype := t, color := c, rank := rankOf t, faceUp := f }

/-- A fresh 4×8 board with a face-down RED SOLDIER at (0,0) and a
face-down BLACK GENERAL at (0,1); the rest of the cells are empty. -/
def bFresh : Board :=
  [[mkP .SOLDIER .red false, mkP .GENERAL .black false, none, none, none, none, none, none],
   emptyRow, emptyRow, emptyRow]

/-- A freshly created part_001 room: players A and B joined, the random
starting turn fell on A, nothing revealed yet, no colors bound. -/
def freshStateAB : Server1.ServerState :=
  { game := { board := bFresh
              firstPieceRevealed := false
              firstPieceColor := none
              firstRevealPlayerId := none
              currentPlayer := none
              turnCount := 0
              playerTurn := some "A"
              revealedPieces := []
              player1 := some "A"
              player2 := some "B" }
    playerColors := [] }

/-- A part_001 room after the first reveal (A bound to RED, B to BLACK),
with a face-up RED SOLDIER at (0,0) and B to move. -/
def revealRejState : Server1.ServerState :=
  { game := { board := [[mkP .SOLDIER .red true, none, none, none, none, none, none, none],
                        emptyRow, emptyRow, emptyRow]
              firstPieceRevealed := true
              firstPieceColor := some .red
              firstRevealPlayerId := some "A"
              currentPlayer := some .black
              turnCount := 1
              playerTurn := some "B"
              revealedPieces := [(0, 0)]
              player1 := some "A"
              player2 := some "B" }
    playerColors := [("A", .red), ("B", .black)] }

/-- A part_001 room in progress with a face-up RED CHARIOT at (0,7) and
A (RED) to move: the input (0,7)→(0,8) then carries an out-of-range
destination column. -/
def oobState : Server1.ServerState :=
  { game := { board := [[none, none, none, none, none, none, none, mkP .CHARIOT .red true],
                        emptyRow, emptyRow, emptyRow]
              firstPieceRevealed := true
              firstPieceColor := some .red
              firstRevealPlayerId := some "A"
              currentPlayer := some .red
              turnCount := 4
              playerTurn := some "A"
              revealedPieces := []
              player1 := some "A"
              player2 := some "B" }
    playerColors := [("A", .red), ("B", .black)] }

/-- A part_000 room in progress (first piece already revealed), RED the
current color, A to move, with a face-down BLACK GENERAL at (0,1). -/
def oldRevealState : Server1.GameStateS :=
  { board := [[mkP .SOLDIER .red true, mkP .GENERAL .black false, none, none, none, none, none, none],
              emptyRow, emptyRow, emptyRow]
    firstPieceRevealed := true
    firstPieceColor := some .red
    firstRevealPlayerId := some "B"
    currentPlayer := some .red
    turnCount := 2
    playerTurn := some "A"
    revealedPieces := []
    player1 := some "A"
    player2 := some "B" }

/-- A part_001 room in progress with a face-up RED CANNON at (0,0), a
face-down BLACK HORSE as a screen at (0,1), a face-up BLACK SOLDIER at
(0,2), and A (RED) to move. -/
def cannonState : Server1.ServerState :=
  { game := { board := [[mkP .CANNON .red true, mkP .HORSE .black false, mkP .SOLDIER .black true,
                         none, none, none, none, none],
                        emptyRow, emptyRow, emptyRow]
              firstPieceRevealed := true
              firstPieceColor := some .red
              firstRevealPlayerId := some "A"
              currentPlayer := some .red
              turnCount := 4
              playerTurn := some "A"
              revealedPieces := []
              player1 := some "A"
              player2 := some "B" }
    playerColors := [("A", .red), ("B", .black)] }

/-- A `Banqi`-class position in which RED has a face-up CANNON at (3,7)
with an empty cell at (3,6), while BLACK's only piece is a face-up
SOLDIER at (0,0) boxed in by RED ADVISORS at (0,1) and (1,0); every
piece is face-up, so after RED's cannon step BLACK has no action. -/
def stuckState : Banqi.BanqiState :=
  { board := [[mkP .SOLDIER .black true, mkP .ADVISOR .red true, none, none, none, none, none, none],
              [mkP .ADVISOR .red true, none, none, none, none, none, none, none],
              emptyRow,
              [none, none, none, none, none, none, none, mkP .CANNON .red true]]
    currentPlayer := .red
    gameActive := true
    winner := none
    turnCount := 12
    lastMove := none }

/-- A `Banqi`-class position in which a face-up RED SOLDIER at (0,0)
stands next to BLACK's last piece, a face-up BLACK GENERAL at (0,1). -/
def lastBlackState : Banqi.BanqiState :=
  { board := [[mkP .SOLDIER .red true, mkP .GENERAL .black true, none, none, none, none, none, none],
              emptyRow, emptyRow, emptyRow]
    currentPlayer := .red
    gameActive := true
    winner := none
    turnCount := 6
    lastMove := none }

/-- The state reached from `lastBlackState` by the capture (0,0)→(0,1). -/
def lastBlackAfter : Banqi.BanqiState :=
  (Banqi.movePiece lastBlackState 0 0 0 1).getD lastBlackState

/-- A `Banqi`-class position with a face-down BLACK GENERAL at (0,1) and
a game already under way. -/
def banqiRevealState : Banqi.BanqiState :=
  { board := [[mkP .SOLDIER .red true, mkP .GENERAL .black false, none, none, none, none, none, none],
              emptyRow, emptyRow, emptyRow]
    currentPlayer := .black
    gameActive := true
    winner := none
    turnCount := 3
    lastMove := none }

/-- The state reached from `banqiRevealState` by revealing (0,1). -/
def banqiRevealAfter : Banqi.BanqiState :=
  (Banqi.revealPiece banqiRevealState 0 1).getD banqiRevealState

/-- The rows of a board, at the list type. -/
def boardRows (b : Board) : List (List (Option Piece)) := b

/-- A well-formed board: the 4 rows of 8 cells the shuffler builds. -/
def boardWF (b : Board) : Prop :=
  List.length b = 4 ∧ ∀ row ∈ boardRows b, List.length row = 8

instance (b : Board) : Decidable (boardWF b) := by
  unfold boardWF
  infer_instance

/-!
Support lemmas about the board primitives, the color map, and the
screen-counting walks.
-/

theorem nth_mem {α : Type} : ∀ {l : List α} {n : Nat} {a : α}, nth l n = some a → a ∈ l := by
  intro l
  induction l with
  | nil => intro n a h; simp [nth] at h
  | cons x xs ih =>
    intro n a h
    cases n with
    | zero =>
      simp [nth] at h
      simp [h]
    | succ m =>
      simp [nth] at h
      exact List.mem_cons_of_mem x (ih h)

theorem nth_setNth_self {α : Type} :
    ∀ (l : List α) (n : Nat) (a v : α), nth l n = some a → nth (setNth l n v) n = some v := by
  intro l
  induction l with
  | nil => intro n a v h; simp [nth] at h
  | cons x xs ih =>
    intro n a v h
    cases n with
    | zero => simp [nth, setNth]
    | succ m =>
      simp only [nth, setNth] at h ⊢
      exact ih m a v h

theorem nth_setNth_ne {α : Type} :
    ∀ (l : List α) (n m : Nat) (v : α), m ≠ n → nth (setNth l n v) m = nth l m := by
  intro l
  induction l with
  | nil => intro n m v _; simp [setNth]
  | cons x xs ih =>
    intro n m v hne
    cases n with
    | zero =>
      cases m with
      | zero => exact absurd rfl hne
      | succ j => simp [nth, setNth]
    | succ i =>
      cases m with
      | zero => simp [nth, setNth]
      | succ j =>
        simp only [nth, setNth]
        exact ih i j v (fun h => hne (by rw [h]))

theorem rowGet_rowSetJS_eq :
    ∀ (row : List (Option Piece)) (c : Nat) (v : Option Piece),
      rowGet (rowSetJS row c v) c = v := by
  intro row
  induction row with
  | nil =>
    intro c v
    induction c with
    | zero => simp [rowGet, rowSetJS, nth]
    | succ m ih => simpa [rowGet, rowSetJS, nth] using ih
  | cons x xs ih =>
    intro c v
    cases c with
    | zero => simp [rowGet, rowSetJS, nth]
    | succ m =>
      simp only [rowGet, rowSetJS, nth]
      exact ih m v

theorem rowGet_rowSetJS_nil :
    ∀ (c c' : Nat) (v : Option Piece), c' ≠ c → rowGet (rowSetJS [] c v) c' = none := by
  intro c
  induction c with
  | zero =>
    intro c' v hne
    cases c' with
    | zero => exact absurd rfl hne
    | succ j => simp [rowGet, rowSetJS, nth]
  | succ m ih =>
    intro c' v hne
    cases c' with
    | zero => simp [rowGet, rowSetJS, nth]
    | succ j =>
      simp only [rowGet, rowSetJS, nth]
      exact ih j v (fun h => hne (by rw [h]))

theorem rowGet_rowSetJS_ne :
    ∀ (row : List (Option Piece)) (c c' : Nat) (v : Option Piece),
      c' ≠ c → rowGet (rowSetJS row c v) c' = rowGet row c' := by
  intro row
  induction row with
  | nil =>
    intro c c' v hne
    rw [rowGet_rowSetJS_nil c c' v hne]
    simp [rowGet, nth]
  | cons x xs ih =>
    intro c c' v hne
    cases c with
    | zero =>
      cases c' with
      | zero => exact absurd rfl hne
      | succ j => simp [rowGet, rowSetJS, nth]
    | succ m =>
      cases c' with
      | zero => simp [rowGet, rowSetJS, nth]
      | succ j =>
        simp only [rowGet, rowSetJS, nth]
        exact ih m j v (fun h => hne (by rw [h]))

theorem getCell_some_row {b : Board} {r c : Nat} {p : Piece} (h : getCell b r c = some p) :
    ∃ row, nth b r = some row ∧ rowGet row c = some p := by
  unfold getCell at h
  cases hrow : nth b r with
  | none => rw [hrow] at h; exact absurd h (by simp)
  | some row => rw [hrow] at h; exact ⟨row, rfl, h⟩

theorem getCell_setCell_eq {b : Board} {r : Nat} {row : List (Option Piece)}
    (hrow : nth b r = some row) (c : Nat) (v : Option Piece) :
    getCell (setCell b r c v) r c = v := by
  unfold setCell
  rw [hrow]
  unfold getCell
  rw [nth_setNth_self b r row (rowSetJS row c v) hrow]
  exact rowGet_rowSetJS_eq row c v

theorem getCell_setCell_ne {b : Board} {r c r' c' : Nat} (v : Option Piece)
    (h : r' ≠ r ∨ c' ≠ c) : getCell (setCell b r c v) r' c' = getCell b r' c' := by
  unfold setCell
  cases hrow : nth b r with
  | none => rfl
  | some row =>
    unfold getCell
    by_cases hr : r' = r
    · subst hr
      rcases h with h | h
      · exact absurd rfl h
      · rw [nth_setNth_self b r' row (rowSetJS row c v) hrow, hrow]
        exact rowGet_rowSetJS_ne row c c' v h
    · rw [nth_setNth_ne b r r' (rowSetJS row c v) hr]

theorem pcGet_pcSet_self :
    ∀ (m : List (String × Color)) (k : String) (v : Color),
      Server1.pcGet (Server1.pcSet m k v) k = some v := by
  intro m
  induction m with
  | nil => intro k v; simp [Server1.pcGet, Server1.pcSet]
  | cons e m ih =>
    intro k v
    by_cases h : e.1 = k
    · simp [Server1.pcGet, Server1.pcSet, h]
    · simp only [Server1.pcSet, if_neg h, Server1.pcGet, if_neg h]
      exact ih k v

theorem pcGet_pcSet_ne :
    ∀ (m : List (String × Color)) (k k' : String) (v : Color), k' ≠ k →
      Server1.pcGet (Server1.pcSet m k v) k' = Server1.pcGet m k' := by
  intro m
  induction m with
  | nil =>
    intro k k' v hne
    have h2 : ¬ ((k : String) = k') := fun hh => hne hh.symm
    simp [Server1.pcGet, Server1.pcSet, h2]
  | cons e m ih =>
    intro k k' v hne
    by_cases h : e.1 = k
    · have h2 : ¬ ((k : String) = k') := fun hh => hne hh.symm
      simp [Server1.pcGet, Server1.pcSet, h, h2, h ▸ h2]
    · simp only [Server1.pcSet, if_neg h, Server1.pcGet]
      by_cases h3 : e.1 = k'
      · simp [h3]
      · simp only [if_neg h3]
        exact ih k k' v hne

theorem mem_flatten_of_getCell {b : Board} {r c : Nat} {p : Piece}
    (h : getCell b r c = some p) : some p ∈ List.flatten b := by
  rcases getCell_some_row h with ⟨row, hrow, hget⟩
  have hcell : nth row c = some (some p) := by
    unfold rowGet at hget
    cases hc : nth row c with
    | none => rw [hc] at hget; exact absurd hget (by simp)
    | some x => rw [hc] at hget; simp at hget; rw [hget]
  exact List.mem_flatten.mpr ⟨row, nth_mem hrow, nth_mem hcell⟩

theorem faceUpCount_zero {b : Board} {col : Color} (h : Banqi.faceUpCount b col = 0)
    {r c : Nat} {p : Piece} (hc : getCell b r c = some p) (hf : p.faceUp = true) :
    ¬ p.color = col := by
  intro hcol
  have hmem := mem_flatten_of_getCell hc
  have := List.countP_eq_zero.mp h (some p) hmem
  simp [hf, hcol] at this

theorem walkUp_eq_sum (f : Nat → Bool) :
    ∀ (n c : Nat), walkUp f n c = ∑ i ∈ Finset.range n, (if f (c + i) then 1 else 0) := by
  intro n
  induction n with
  | zero => intro c; simp [walkUp]
  | succ m ih =>
    intro c
    have h1 : ∑ i ∈ Finset.range (m + 1), (if f (c + i) then 1 else 0)
        = (∑ i ∈ Finset.range m, (if f (c + (i + 1)) then 1 else 0)) + (if f (c + 0) then 1 else 0) :=
      Finset.sum_range_succ' _ m
    have h2 : (∑ i ∈ Finset.range m, (if f (c + (i + 1)) then 1 else 0))
        = ∑ i ∈ Finset.range m, (if f (c + 1 + i) then 1 else 0) := by
      apply Finset.sum_congr rfl
      intro i _
      have h3 : c + (i + 1) = c + 1 + i := by omega
      rw [h3]
    rw [walkUp, ih (c + 1), h1, h2, Nat.add_zero]
    exact Nat.add_comm _ _

theorem walkDown_eq_sum (f : Nat → Bool) :
    ∀ (n c : Nat), walkDown f n c = ∑ i ∈ Finset.range n, (if f (c - i) then 1 else 0) := by
  intro n
  induction n with
  | zero => intro c; simp [walkDown]
  | succ m ih =>
    intro c
    have h1 : ∑ i ∈ Finset.range (m + 1), (if f (c - i) then 1 else 0)
        = (∑ i ∈ Finset.range m, (if f (c - (i + 1)) then 1 else 0)) + (if f (c - 0) then 1 else 0) :=
      Finset.sum_range_succ' _ m
    have h2 : (∑ i ∈ Finset.range m, (if f (c - (i + 1)) then 1 else 0))
        = ∑ i ∈ Finset.range m, (if f (c - 1 - i) then 1 else 0) := by
      apply Finset.sum_congr rfl
      intro i _
      have h3 : c - (i + 1) = c - 1 - i := by omega
      rw [h3]
    rw [walkDown, ih (c - 1), h1, h2, Nat.sub_zero]
    exact Nat.add_comm _ _

theorem lineOccCount_eq_sum (f : Nat → Bool) (L lo hi : Nat) (h2 : hi ≤ L) :
    lineOccCount f L lo hi = ∑ i ∈ Finset.range (hi - lo - 1), (if f (lo + 1 + i) then 1 else 0) := by
  unfold lineOccCount
  have hset : (Finset.range L).filter (fun x => lo < x ∧ x < hi ∧ f x = true)
      = (Finset.Ico (lo + 1) hi).filter (fun x => f x = true) := by
    ext x
    simp only [Finset.mem_filter, Finset.mem_range, Finset.mem_Ico]
    constructor
    · rintro ⟨_, hlo, hhi, hf⟩
      exact ⟨⟨by omega, hhi⟩, hf⟩
    · rintro ⟨⟨ha, hb⟩, hf⟩
      exact ⟨by omega, by omega, hb, hf⟩
  rw [hset, Finset.card_filter]
  rw [Finset.sum_Ico_eq_sum_range]
  have h3 : hi - (lo + 1) = hi - lo - 1 := by omega
  rw [h3]

theorem walkUp_lineOcc (f : Nat → Bool) (L lo hi : Nat) (h2 : hi ≤ L) :
    walkUp f (hi - lo - 1) (lo + 1) = lineOccCount f L lo hi := by
  rw [walkUp_eq_sum, lineOccCount_eq_sum f L lo hi h2]

theorem walkDown_lineOcc (f : Nat → Bool) (L lo hi : Nat) (h2 : hi ≤ L) :
    walkDown f (hi - lo - 1) (hi - 1) = lineOccCount f L lo hi := by
  rw [walkDown_eq_sum, lineOccCount_eq_sum f L lo hi h2]
  have hrefl := Finset.sum_range_reflect
    (fun i => if f (lo + 1 + i) then 1 else 0) (hi - lo - 1)
  rw [← hrefl]
  apply Finset.sum_congr rfl
  intro i hmem
  simp only [Finset.mem_range] at hmem
  have h4 : hi - 1 - i = lo + 1 + (hi - lo - 1 - 1 - i) := by omega
  rw [h4]

theorem checkGameOver_board (s : Banqi.BanqiState) :
    (Banqi.checkGameOver s).board = s.board := by
  simp only [Banqi.checkGameOver]
  split
  · rfl
  · split
    · rfl
    · split
      · rfl
      · rfl

theorem checkGameOver_black_zero (st : Banqi.BanqiState) (r c : Nat) (p : Piece)
    (hc : getCell st.board r c = some p) (hf : p.faceUp = true) (hcol : p.color = .red)
    (hb : Banqi.faceUpCount st.board .black = 0) :
    (Banqi.checkGameOver st).winner = some .red ∧ (Banqi.checkGameOver st).gameActive = false := by
  have hred : ¬ Banqi.faceUpCount st.board .red = 0 := by
    intro h0
    exact (faceUpCount_zero h0 hc hf) hcol
  have h1 : Banqi.checkGameOver st = { st with gameActive := false, winner := some .red } := by
    simp only [Banqi.checkGameOver]
    rw [if_neg hred, if_pos hb]
  rw [h1]
  exact ⟨rfl, rfl⟩

theorem isOrthogonalMove_ne {fr fc tr tc : Nat} (h : isOrthogonalMove fr fc tr tc = true) :
    tr ≠ fr ∨ tc ≠ fc := by
  simp only [isOrthogonalMove, absDiff, decide_eq_true_eq] at h
  rcases h with ⟨h1, _⟩ | ⟨_, h2⟩
  · left; omega
  · right; omega

/-!
Claim theorems.
-/

/-- C1, counterexample: the claim says every accepted move is followed by
a terminal check, and that the color to move loses when it has no legal
action.  In `stuckState`, RED's cannon step (3,7)→(3,6) is accepted by
the part_002 engine, after which BLACK (the color to move) has no legal
action by the engine's own scan — yet the game stays active with no
winner, because handleCannonMove runs no terminal check on a move to an
empty cell; running checkGameOver on the resulting position would have
declared RED the winner. -/
theorem c1_cannon_empty_skips_terminal_check :
    (Banqi.makeMove stuckState 3 7 3 6).map
        (fun s => (s.gameActive, s.winner, Banqi.hasValidMovesScan s,
                   (Banqi.checkGameOver s).winner, (Banqi.checkGameOver s).gameActive))
      = some (true, none, false, some .red, false) := by decide

/-- C2, counterexample: player B is on turn in `revealRejState` and asks
to reveal the already face-up piece at (0,0).  The action is rejected
(valid = false) and the state is unmutated, but the requester receives no
rejection message of any kind (the emission list holds no moveRejected
entry), while a gameStateUpdate broadcast still went out to the whole
room — contradicting both the "structured rejection" and the "nothing is
broadcast" parts of the claim. -/
theorem c2_silent_reject_with_broadcast :
    Server1.serverMove revealRejState "B" { fromRow := 0, fromCol := 0, toRow := 0, toCol := 0 } =
      { st := revealRejState
        emits := [Server1.Emit.gameStateUpdate revealRejState.game.board
                    revealRejState.game.currentPlayer revealRejState.game.playerTurn]
        valid := false } := by decide

/-- C3, counterexample: on the fresh room `freshStateAB`, player A's
first reveal at (0,0) is accepted, but turnCount rises from 0 to 2, not
to 1: the reveal branch and the shared moveValid block each increment
it.  The claim's "increases by exactly one" is false for reveals. -/
theorem c3_first_reveal_double_increment :
    (Server1.serverMove freshStateAB "A" { fromRow := 0, fromCol := 0, toRow := 0, toCol := 0 }).valid = true ∧
    (Server1.serverMove freshStateAB "A" { fromRow := 0, fromCol := 0, toRow := 0, toCol := 0 }).st.game.turnCount
      = freshStateAB.game.turnCount + 2 := by decide

/-- C4, counterexample: in the fresh room `freshStateAB` nothing is
revealed and no color is assigned, the cell (0,0) holds a face-down
piece, and B is a registered participant — yet B's reveal request is
rejected on turn grounds (the randomly assigned playerTurn is A), the
state is unchanged, and B is sent the not-your-turn rejection.  The
claim's "accepted from either participant" is false. -/
theorem c4_first_reveal_turn_gate :
    freshStateAB.game.firstPieceRevealed = false ∧
    freshStateAB.game.player2 = some "B" ∧
    getCell freshStateAB.game.board 0 0 = mkP .SOLDIER .red false ∧
    (Server1.serverMove freshStateAB "B" { fromRow := 0, fromCol := 0, toRow := 0, toCol := 0 }).valid = false ∧
    (Server1.serverMove freshStateAB "B" { fromRow := 0, fromCol := 0, toRow := 0, toCol := 0 }).st = freshStateAB ∧
    (Server1.serverMove freshStateAB "B" { fromRow := 0, fromCol := 0, toRow := 0, toCol := 0 }).emits =
      [Server1.Emit.gameStateUpdate freshStateAB.game.board none (some "A"),
       Server1.Emit.moveRejected "B"] := by decide

/-- C6: the claim says every accepted reveal after the first toggles
currentColor to the opposite color exactly once.  The part_000 server
contradicts it (and its own comments, which announce a single switch):
in `oldRevealState` the first piece is already revealed and the current
color is RED; A's accepted reveal of the face-down piece at (0,1) leaves
currentPlayer at RED, because the reveal branch and the moveValid block
each toggle it.  (The part_001 rendering overwrites the toggle with the
next player's bound color, giving the intended net single toggle.) -/
theorem c6_old_server_reveal_keeps_color :
    oldRevealState.firstPieceRevealed = true ∧
    oldRevealState.currentPlayer = some .red ∧
    (Server0.serverMove0 oldRevealState "A" { fromRow := 0, fromCol := 1, toRow := 0, toCol := 1 }).valid = true ∧
    (Server0.serverMove0 oldRevealState "A" { fromRow := 0, fromCol := 1, toRow := 0, toCol := 1 }).st.currentPlayer
      = some .red := by decide

/-- C9: the claim says a move intent with a column outside [0,8) fails
with an OUT_OF_BOUNDS error and leaves the state untouched.  The
part_001 server has no bounds check at all: from `oobState`, RED's
request (0,7)→(0,8) is accepted — the chariot is written to the
out-of-range column 8 (JS extends the row array) and (0,7) is cleared.
(A row outside [0,4) is worse still: `board[row]` is undefined and the
member access throws an uncaught TypeError.) -/
theorem c9_oob_column_move_accepted :
    (Server1.serverMove oobState "A" { fromRow := 0, fromCol := 7, toRow := 0, toCol := 8 }).valid = true ∧
    getCell (Server1.serverMove oobState "A" { fromRow := 0, fromCol := 7, toRow := 0, toCol := 8 }).st.game.board 0 8
      = mkP .CHARIOT .red true ∧
    getCell (Server1.serverMove oobState "A" { fromRow := 0, fromCol := 7, toRow := 0, toCol := 8 }).st.game.board 0 7
      = none := by decide

/-- C8: for two distinct in-range cells sharing a row or a column, the
servers' cannonCanCapture returns true exactly when the number of
occupied cells strictly between them along that line is 1 (and so false
when that count is 0 or at least 2); the count uses bare occupancy, so
any piece — face-up or face-down, of either color — is a screen. -/
theorem c8_cannon_screen_exactness :
    ∀ (b : Board) (fr fc tr tc : Nat),
      fr < 4 → tr < 4 → fc < 8 → tc < 8 →
      ¬ (fr = tr ∧ fc = tc) → (fr = tr ∨ fc = tc) →
      (cannonCanCapture b fr fc tr tc = true ↔ betweenOccCount b fr fc tr tc = 1) := by
  intro b fr fc tr tc _ htr _ htc hne hline
  rcases hline with hrow | hcol
  · subst hrow
    have hcne : fc ≠ tc := fun h => hne ⟨rfl, h⟩
    have h1 : ¬ (fr ≠ fr ∧ fc ≠ tc) := fun h => h.1 rfl
    unfold cannonCanCapture betweenOccCount
    rw [if_neg h1, if_pos rfl, if_pos rfl, decide_eq_true_iff]
    by_cases hlt : fc < tc
    · rw [if_pos hlt, walkUp_lineOcc (fun c => occupiedAt b fr c) 8 fc tc (Nat.le_of_lt htc)]
      rw [Nat.min_eq_left (Nat.le_of_lt hlt), Nat.max_eq_right (Nat.le_of_lt hlt)]
    · have hgt : tc < fc := by omega
      rw [if_neg hlt, walkDown_lineOcc (fun c => occupiedAt b fr c) 8 tc fc (by omega)]
      rw [Nat.min_eq_right (Nat.le_of_lt hgt), Nat.max_eq_left (Nat.le_of_lt hgt)]
  · subst hcol
    have hrne : fr ≠ tr := fun h => hne ⟨h, rfl⟩
    have h1 : ¬ (fr ≠ tr ∧ fc ≠ fc) := fun h => h.2 rfl
    unfold cannonCanCapture betweenOccCount
    rw [if_neg h1, if_neg hrne, if_neg hrne, decide_eq_true_iff]
    by_cases hlt : fr < tr
    · rw [if_pos hlt, walkUp_lineOcc (fun r => occupiedAt b r fc) 4 fr tr (Nat.le_of_lt htr)]
      rw [Nat.min_eq_left (Nat.le_of_lt hlt), Nat.max_eq_right (Nat.le_of_lt hlt)]
    · have hgt : tr < fr := by omega
      rw [if_neg hlt, walkDown_lineOcc (fun r => occupiedAt b r fc) 4 tr fr (by omega)]
      rw [Nat.min_eq_right (Nat.le_of_lt hgt), Nat.max_eq_left (Nat.le_of_lt hgt)]

/-- C8, witness: the exactness theorem instantiated on a concrete board
with one screen between (0,0) and (0,2): cannonCanCapture is true there
and the strictly-between occupied count is 1. -/
theorem c8_cannon_screen_exactness_witness :
    cannonCanCapture cannonState.game.board 0 0 0 2 = true ∧
    betweenOccCount cannonState.game.board 0 0 0 2 = 1 :=
  have h := c8_cannon_screen_exactness cannonState.game.board 0 0 0 2
    (by decide) (by decide) (by decide) (by decide) (by decide) (Or.inl rfl)
  ⟨by decide, h.mp (by decide)⟩

/-- C2 (amended): a rejected action indeed leaves the game state (board,
flags, turn data and color bindings) completely unmutated, and a
not-your-turn rejection is reported to its requester; but every move
request — accepted or rejected — broadcasts a gameStateUpdate to the
whole room before validation, and a rejection other than not-your-turn
produces no message to the requester at all (the broadcast is the only
emission).  The row bounds keep the statement to requests the unguarded
JS indexing can process without throwing. -/
theorem c2_reject_no_mutation :
    ∀ (s : Server1.ServerState) (me : String) (d : Server1.MoveData),
      d.fromRow < 4 → d.toRow < 4 →
      ((Server1.serverMove s me d).valid = false → (Server1.serverMove s me d).st = s) ∧
      ((Server1.serverMove s me d).emits.head? =
        some (Server1.Emit.gameStateUpdate s.game.board s.game.currentPlayer s.game.playerTurn)) ∧
      (s.game.playerTurn ≠ some me →
        (Server1.serverMove s me d).emits =
          [Server1.Emit.gameStateUpdate s.game.board s.game.currentPlayer s.game.playerTurn,
           Server1.Emit.moveRejected me]) ∧
      (s.game.playerTurn = some me → (Server1.serverMove s me d).valid = false →
        (Server1.serverMove s me d).emits =
          [Server1.Emit.gameStateUpdate s.game.board s.game.currentPlayer s.game.playerTurn]) := by
  intro s me d _ _
  by_cases hpt : s.game.playerTurn = some me
  · have hcond : ¬ (s.game.playerTurn ≠ some me) := fun h => h hpt
    cases hbo : Server1.moveBranch s me d with
    | none =>
      have hres : Server1.serverMove s me d =
          { st := s
            emits := [Server1.Emit.gameStateUpdate s.game.board s.game.currentPlayer s.game.playerTurn]
            valid := false } := by
        simp only [Server1.serverMove, if_neg hcond, hbo]
      rw [hres]
      exact ⟨fun _ => rfl, rfl, fun h => absurd hpt h, fun _ _ => rfl⟩
    | some out =>
      have hres : Server1.serverMove s me d =
          { st := Server1.finishValid out.st me
            emits := [Server1.Emit.gameStateUpdate s.game.board s.game.currentPlayer s.game.playerTurn,
              Server1.Emit.moveOk me out.firstPiece (Server1.finishValid out.st me).game.currentPlayer
                out.captured (Server1.finishValid out.st me).game.playerTurn,
              Server1.Emit.gameStateUpdate (Server1.finishValid out.st me).game.board
                (Server1.finishValid out.st me).game.currentPlayer
                (Server1.finishValid out.st me).game.playerTurn]
            valid := true } := by
        simp only [Server1.serverMove, if_neg hcond, hbo]
      rw [hres]
      refine ⟨fun h => absurd h (by simp), rfl, fun h => absurd hpt h, fun _ h => absurd h (by simp)⟩
  · have hres : Server1.serverMove s me d =
        { st := s
          emits := [Server1.Emit.gameStateUpdate s.game.board s.game.currentPlayer s.game.playerTurn,
            Server1.Emit.moveRejected me]
          valid := false } := by
      simp only [Server1.serverMove, if_pos hpt]
    rw [hres]
    exact ⟨fun _ => rfl, rfl, fun _ => rfl, fun h => absurd h hpt⟩

/-- C2, witness: the amended statement instantiated at the concrete
rejected reveal of `c2_silent_reject_with_broadcast`'s scenario. -/
theorem c2_reject_no_mutation_witness :
    (Server1.serverMove revealRejState "A" { fromRow := 0, fromCol := 0, toRow := 0, toCol := 0 }).st
      = revealRejState ∧
    (Server1.serverMove revealRejState "A" { fromRow := 0, fromCol := 0, toRow := 0, toCol := 0 }).emits
      = [Server1.Emit.gameStateUpdate revealRejState.game.board revealRejState.game.currentPlayer
           revealRejState.game.playerTurn,
         Server1.Emit.moveRejected "A"] :=
  have h := c2_reject_no_mutation revealRejState "A" { fromRow := 0, fromCol := 0, toRow := 0, toCol := 0 }
    (by decide) (by decide)
  ⟨h.1 (by decide), h.2.2.1 (by decide)⟩

theorem firstRevealBranch_turnCount {s : Server1.ServerState} {me : String}
    {d : Server1.MoveData} {out : Server1.BranchOut}
    (h : Server1.firstRevealBranch s me d = some out) :
    out.st.game.turnCount = s.game.turnCount + 1 := by
  simp only [Server1.firstRevealBranch] at h
  split at h
  · exact absurd h (by simp)
  · split at h
    · exact absurd h (by simp)
    · rw [Option.some.injEq] at h
      subst h
      rfl

theorem laterRevealBranch_turnCount {s : Server1.ServerState} {me : String}
    {d : Server1.MoveData} {out : Server1.BranchOut}
    (h : Server1.laterRevealBranch s me d = some out) :
    out.st.game.turnCount = s.game.turnCount + 1 := by
  simp only [Server1.laterRevealBranch] at h
  split at h
  · exact absurd h (by simp)
  · split at h
    · exact absurd h (by simp)
    · rw [Option.some.injEq] at h
      subst h
      rfl

theorem regularMoveBranch_turnCount {s : Server1.ServerState} {me : String}
    {d : Server1.MoveData} {out : Server1.BranchOut}
    (h : Server1.regularMoveBranch s me d = some out) :
    out.st.game.turnCount = s.game.turnCount := by
  simp only [Server1.regularMoveBranch] at h
  split at h
  · exact absurd h (by simp)
  · split at h
    · split at h
      · split at h
        · split at h
          · split at h
            · rw [Option.some.injEq] at h
              subst h
              rfl
            · exact absurd h (by simp)
          · exact absurd h (by simp)
        · split at h
          · rw [Option.some.injEq] at h
            subst h
            rfl
          · exact absurd h (by simp)
      · split at h
        · split at h
          · rw [Option.some.injEq] at h
            subst h
            rfl
          · split at h
            · split at h
              · rw [Option.some.injEq] at h
                subst h
                rfl
              · exact absurd h (by simp)
            · exact absurd h (by simp)
        · exact absurd h (by simp)
    · exact absurd h (by simp)

/-- C3 (amended): for every accepted action of the part_001 server, an
accepted reveal (first or subsequent) raises turnCount by exactly two —
once in the reveal branch and once more in the shared moveValid block —
while an accepted regular move raises it by exactly one; in particular a
fresh game's first reveal followed by a second reveal leaves turnCount at
4, not 2. -/
theorem c3_turncount_increments :
    ∀ (s : Server1.ServerState) (me : String) (d : Server1.MoveData),
      (Server1.serverMove s me d).valid = true →
      (Server1.isReveal d → (Server1.serverMove s me d).st.game.turnCount = s.game.turnCount + 2) ∧
      (¬ Server1.isReveal d → (Server1.serverMove s me d).st.game.turnCount = s.game.turnCount + 1) := by
  intro s me d hv
  by_cases hpt : s.game.playerTurn = some me
  · have hcond : ¬ (s.game.playerTurn ≠ some me) := fun h => h hpt
    cases hbo : Server1.moveBranch s me d with
    | none =>
      have : (Server1.serverMove s me d).valid = false := by
        simp only [Server1.serverMove, if_neg hcond, hbo]
      rw [this] at hv
      exact absurd hv (by simp)
    | some out =>
      have hres : (Server1.serverMove s me d).st = Server1.finishValid out.st me := by
        simp only [Server1.serverMove, if_neg hcond, hbo]
      rw [hres]
      have hfin : (Server1.finishValid out.st me).game.turnCount = out.st.game.turnCount + 1 := rfl
      constructor
      · intro hrev
        have hbranch : out.st.game.turnCount = s.game.turnCount + 1 := by
          simp only [Server1.moveBranch] at hbo
          by_cases hfr : Server1.isReveal d ∧ s.game.firstPieceRevealed = false
          · rw [if_pos hfr] at hbo
            exact firstRevealBranch_turnCount hbo
          · rw [if_neg hfr, if_pos hrev] at hbo
            exact laterRevealBranch_turnCount hbo
        rw [hfin, hbranch]
      · intro hrev
        have hnfr : ¬ (Server1.isReveal d ∧ s.game.firstPieceRevealed = false) :=
          fun h => hrev h.1
        simp only [Server1.moveBranch, if_neg hnfr, if_neg hrev] at hbo
        have hbranch := regularMoveBranch_turnCount hbo
        rw [hfin, hbranch]
  · have : (Server1.serverMove s me d).valid = false := by
      simp only [Server1.serverMove, if_pos hpt]
    rw [this] at hv
    exact absurd hv (by simp)

/-- C3, witness: the amended statement at player A's accepted first
reveal on the fresh room, and at an accepted regular move. -/
theorem c3_turncount_increments_witness :
    (Server1.serverMove freshStateAB "A" { fromRow := 0, fromCol := 0, toRow := 0, toCol := 0 }).st.game.turnCount
      = freshStateAB.game.turnCount + 2 ∧
    (Server1.serverMove cannonState "A" { fromRow := 0, fromCol := 0, toRow := 0, toCol := 2 }).st.game.turnCount
      = cannonState.game.turnCount + 1 :=
  have h1 := c3_turncount_increments freshStateAB "A"
    { fromRow := 0, fromCol := 0, toRow := 0, toCol := 0 } (by decide)
  have h2 := c3_turncount_increments cannonState "A"
    { fromRow := 0, fromCol := 0, toRow := 0, toCol := 2 } (by decide)
  ⟨h1.1 (by decide), h2.2 (by decide)⟩

/-- C4 (amended): while nothing has been revealed, a reveal request on a
face-down piece is accepted only when it comes from the participant the
server randomly designated in playerTurn; the identical request from the
other registered participant is rejected as not-your-turn with no state
change — the turn gate applies to the first reveal as to any other
action, color assignment or not. -/
theorem c4_first_reveal_acceptance :
    ∀ (s : Server1.ServerState) (me : String) (d : Server1.MoveData) (p : Piece),
      s.game.firstPieceRevealed = false →
      Server1.isReveal d →
      getCell s.game.board d.toRow d.toCol = some p →
      p.faceUp = false →
      (s.game.playerTurn = some me → (Server1.serverMove s me d).valid = true) ∧
      (s.game.playerTurn ≠ some me →
        (Server1.serverMove s me d).valid = false ∧
        (Server1.serverMove s me d).st = s ∧
        (Server1.serverMove s me d).emits =
          [Server1.Emit.gameStateUpdate s.game.board s.game.currentPlayer s.game.playerTurn,
           Server1.Emit.moveRejected me]) := by
  intro s me d p hfpr hrev hcell hface
  constructor
  · intro hpt
    have hcond : ¬ (s.game.playerTurn ≠ some me) := fun h => h hpt
    have hbr : ∃ out, Server1.firstRevealBranch s me d = some out := by
      simp only [Server1.firstRevealBranch, hcell]
      rw [if_neg (by simp [hface])]
      exact ⟨_, rfl⟩
    rcases hbr with ⟨out, hbr⟩
    have hbo : Server1.moveBranch s me d = some out := by
      simp only [Server1.moveBranch, if_pos (And.intro hrev hfpr), hbr]
    simp only [Server1.serverMove, if_neg hcond, hbo]
  · intro hpt
    simp only [Server1.serverMove, if_pos hpt]
    exact ⟨trivial, trivial, trivial⟩

/-- C4, witness: the amended statement at the fresh room: A's first
reveal is accepted, B's identical request is turned away. -/
theorem c4_first_reveal_acceptance_witness :
    (Server1.serverMove freshStateAB "A" { fromRow := 0, fromCol := 0, toRow := 0, toCol := 0 }).valid = true ∧
    (Server1.serverMove freshStateAB "B" { fromRow := 0, fromCol := 0, toRow := 0, toCol := 0 }).valid = false :=
  have hA := c4_first_reveal_acceptance freshStateAB "A"
    { fromRow := 0, fromCol := 0, toRow := 0, toCol := 0 }
    { ptype := .SOLDIER, color := .red, rank := 1, faceUp := false }
    (by decide) (by decide) (by decide) (by decide)
  have hB := c4_first_reveal_acceptance freshStateAB "B"
    { fromRow := 0, fromCol := 0, toRow := 0, toCol := 0 }
    { ptype := .SOLDIER, color := .red, rank := 1, faceUp := false }
    (by decide) (by decide) (by decide) (by decide)
  ⟨hA.1 (by decide), (hB.2 (by decide)).1⟩

theorem firstRevealBranch_spec {s : Server1.ServerState} {me : String}
    {d : Server1.MoveData} {out : Server1.BranchOut} {p : Piece}
    (hcell : getCell s.game.board d.toRow d.toCol = some p)
    (hface : p.faceUp = false)
    (h : Server1.firstRevealBranch s me d = some out) :
    out.st.playerColors =
      (match Server1.otherOf s.game me with
        | some o => Server1.pcSet (Server1.pcSet s.playerColors me p.color) o (opp p.color)
        | none => Server1.pcSet s.playerColors me p.color) ∧
    out.st.game.currentPlayer = some p.color ∧
    out.st.game.playerTurn = Server1.otherOf s.game me ∧
    out.st.game.firstRevealPlayerId = some me ∧
    out.st.game.firstPieceRevealed = true ∧
    out.firstPiece = some p.color := by
  simp only [Server1.firstRevealBranch, hcell] at h
  rw [if_neg (by simp [hface])] at h
  rw [Option.some.injEq] at h
  subst h
  exact ⟨rfl, rfl, rfl, rfl, rfl, rfl⟩

theorem laterRevealBranch_colors {s : Server1.ServerState} {me : String}
    {d : Server1.MoveData} {out : Server1.BranchOut}
    (h : Server1.laterRevealBranch s me d = some out) :
    out.st.playerColors = s.playerColors := by
  simp only [Server1.laterRevealBranch] at h
  split at h
  · exact absurd h (by simp)
  · split at h
    · exact absurd h (by simp)
    · rw [Option.some.injEq] at h
      subst h
      rfl

theorem regularMoveBranch_colors {s : Server1.ServerState} {me : String}
    {d : Server1.MoveData} {out : Server1.BranchOut}
    (h : Server1.regularMoveBranch s me d = some out) :
    out.st.playerColors = s.playerColors := by
  simp only [Server1.regularMoveBranch] at h
  split at h
  · exact absurd h (by simp)
  · split at h
    · split at h
      · split at h
        · split at h
          · split at h
            · rw [Option.some.injEq] at h
              subst h
              rfl
            · exact absurd h (by simp)
          · exact absurd h (by simp)
        · split at h
          · rw [Option.some.injEq] at h
            subst h
            rfl
          · exact absurd h (by simp)
      · split at h
        · split at h
          · rw [Option.some.injEq] at h
            subst h
            rfl
          · split at h
            · split at h
              · rw [Option.some.injEq] at h
                subst h
                rfl
              · exact absurd h (by simp)
            · exact absurd h (by simp)
        · exact absurd h (by simp)
    · exact absurd h (by simp)

/-- C5: the first accepted reveal sets currentColor (the reveal branch's
currentPlayer assignment) to the revealed piece's color, permanently
binds the revealer to that same color in playerColors and the other
registered participant to the opposite color, and records the revealer;
and once the first reveal has happened, no later move-handler invocation
of any kind changes the playerColors bindings (until reset or disconnect
clear them). -/
theorem c5_first_reveal_binding :
    (∀ (s : Server1.ServerState) (me a b2 : String) (d : Server1.MoveData) (p : Piece),
      s.game.firstPieceRevealed = false →
      s.game.playerTurn = some me →
      Server1.isReveal d →
      getCell s.game.board d.toRow d.toCol = some p →
      p.faceUp = false →
      s.game.player1 = some a →
      s.game.player2 = some b2 →
      (me = a ∨ me = b2) → a ≠ b2 →
      (∃ out, Server1.moveBranch s me d = some out ∧
        out.st.game.currentPlayer = some p.color ∧
        out.firstPiece = some p.color) ∧
      (Server1.serverMove s me d).valid = true ∧
      Server1.pcGet (Server1.serverMove s me d).st.playerColors me = some p.color ∧
      Server1.pcGet (Server1.serverMove s me d).st.playerColors (if me = a then b2 else a)
        = some (opp p.color) ∧
      (Server1.serverMove s me d).st.game.firstRevealPlayerId = some me ∧
      (Server1.serverMove s me d).st.game.firstPieceRevealed = true) ∧
    (∀ (s : Server1.ServerState) (me : String) (d : Server1.MoveData),
      s.game.firstPieceRevealed = true →
      (Server1.serverMove s me d).st.playerColors = s.playerColors) := by
  constructor
  · intro s me a b2 d p hfpr hpt hrev hcell hface hp1 hp2 hme hab
    have hcond : ¬ (s.game.playerTurn ≠ some me) := fun h => h hpt
    obtain ⟨out, hbr⟩ : ∃ out, Server1.firstRevealBranch s me d = some out := by
      simp only [Server1.firstRevealBranch, hcell]
      rw [if_neg (by simp [hface])]
      exact ⟨_, rfl⟩
    have hbo : Server1.moveBranch s me d = some out := by
      simp only [Server1.moveBranch, if_pos (And.intro hrev hfpr), hbr]
    have hspec := firstRevealBranch_spec hcell hface hbr
    have hoth : Server1.otherOf s.game me = some (if me = a then b2 else a) := by
      by_cases hma : me = a
      · rw [if_pos hma]
        subst hma
        simp [Server1.otherOf, hp1, hp2]
      · rw [if_neg hma]
        have hcondn : ¬ (s.game.player1 = some me) := by
          rw [hp1]
          intro hh
          exact hma (Option.some.inj hh).symm
        simp only [Server1.otherOf]
        rw [if_neg hcondn, hp1]
    have hmeoth : me ≠ (if me = a then b2 else a) := by
      by_cases hma : me = a
      · rw [if_pos hma, hma]
        exact hab
      · rw [if_neg hma]
        exact hma
    rw [hoth] at hspec
    obtain ⟨hcolors, hcur, -, hfrp, hfprev, hfp⟩ := hspec
    have hstres : (Server1.serverMove s me d).st = Server1.finishValid out.st me := by
      simp only [Server1.serverMove, if_neg hcond, hbo]
    have hvres : (Server1.serverMove s me d).valid = true := by
      simp only [Server1.serverMove, if_neg hcond, hbo]
    have hkeep : (Server1.finishValid out.st me).playerColors = out.st.playerColors := rfl
    refine ⟨⟨out, hbo, hcur, hfp⟩, hvres, ?_, ?_, ?_, ?_⟩
    · rw [hstres, hkeep, hcolors]
      rw [pcGet_pcSet_ne _ _ _ _ hmeoth]
      exact pcGet_pcSet_self _ _ _
    · rw [hstres, hkeep, hcolors]
      exact pcGet_pcSet_self _ _ _
    · rw [hstres]
      show out.st.game.firstRevealPlayerId = some me
      exact hfrp
    · rw [hstres]
      show out.st.game.firstPieceRevealed = true
      exact hfprev
  · intro s me d hfpr
    by_cases hpt : s.game.playerTurn = some me
    · have hcond : ¬ (s.game.playerTurn ≠ some me) := fun h => h hpt
      cases hbo : Server1.moveBranch s me d with
      | none => simp only [Server1.serverMove, if_neg hcond, hbo]
      | some out =>
        have hcA : out.st.playerColors = s.playerColors := by
          simp only [Server1.moveBranch] at hbo
          have hnfr : ¬ (Server1.isReveal d ∧ s.game.firstPieceRevealed = false) := by
            rintro ⟨-, h⟩
            rw [hfpr] at h
            exact absurd h (by simp)
          rw [if_neg hnfr] at hbo
          by_cases hrev : Server1.isReveal d
          · rw [if_pos hrev] at hbo
            exact laterRevealBranch_colors hbo
          · rw [if_neg hrev] at hbo
            exact regularMoveBranch_colors hbo
        have hstres : (Server1.serverMove s me d).st = Server1.finishValid out.st me := by
          simp only [Server1.serverMove, if_neg hcond, hbo]
        rw [hstres]
        show out.st.playerColors = s.playerColors
        exact hcA
    · simp only [Server1.serverMove, if_pos hpt]

/-- C5, witness: the binding statement at the fresh room where A reveals
the face-down RED SOLDIER at (0,0): A is bound to RED, B to BLACK, A is
recorded as the first revealer; and the no-rebinding statement at a
later state. -/
theorem c5_first_reveal_binding_witness :
    Server1.pcGet (Server1.serverMove freshStateAB "A"
        { fromRow := 0, fromCol := 0, toRow := 0, toCol := 0 }).st.playerColors "A" = some .red ∧
    Server1.pcGet (Server1.serverMove freshStateAB "A"
        { fromRow := 0, fromCol := 0, toRow := 0, toCol := 0 }).st.playerColors "B" = some .black ∧
    (Server1.serverMove revealRejState "B"
        { fromRow := 0, fromCol := 1, toRow := 0, toCol := 1 }).st.playerColors
      = revealRejState.playerColors :=
  have h := c5_first_reveal_binding.1 freshStateAB "A" "A" "B"
    { fromRow := 0, fromCol := 0, toRow := 0, toCol := 0 }
    { ptype := .SOLDIER, color := .red, rank := 1, faceUp := false }
    (by decide) (by decide) (by decide) (by decide) (by decide) (by decide) (by decide)
    (Or.inl rfl) (by decide)
  have h2 := c5_first_reveal_binding.2 revealRejState "B"
    { fromRow := 0, fromCol := 1, toRow := 0, toCol := 1 } (by decide)
  ⟨h.2.2.1, by simpa using h.2.2.2.1, h2⟩

theorem cannonCanCapture_same_cell (b : Board) (r c : Nat) :
    cannonCanCapture b r c r c = false := by
  unfold cannonCanCapture
  rw [if_neg (fun h => h.1 rfl), if_pos rfl, if_neg (lt_irrefl c), Nat.sub_self]
  rfl

theorem nth_setCell_some {b : Board} {r : Nat} {row : List (Option Piece)}
    (h : nth b r = some row) (r2 c2 : Nat) (v : Option Piece) :
    ∃ row2, nth (setCell b r2 c2 v) r = some row2 := by
  unfold setCell
  cases h2 : nth b r2 with
  | none => exact ⟨row, h⟩
  | some row0 =>
    by_cases hr : r = r2
    · subst hr
      exact ⟨rowSetJS row0 c2 v, nth_setNth_self b r row0 _ h2⟩
    · rw [nth_setNth_ne b r2 r _ hr]
      exact ⟨row, h⟩

theorem moveBoard_getCell {b : Board} {d : Server1.MoveData} {sp : Piece}
    {rowF rowT : List (Option Piece)}
    (hrowF : nth b d.fromRow = some rowF)
    (hrowT : nth b d.toRow = some rowT)
    (hne : ¬ (d.fromRow = d.toRow ∧ d.fromCol = d.toCol)) :
    getCell (Server1.moveBoard b d sp) d.toRow d.toCol = some sp ∧
    getCell (Server1.moveBoard b d sp) d.fromRow d.fromCol = none ∧
    (∀ r c, ¬ (r = d.fromRow ∧ c = d.fromCol) → ¬ (r = d.toRow ∧ c = d.toCol) →
      getCell (Server1.moveBoard b d sp) r c = getCell b r c) := by
  have hor : d.fromRow ≠ d.toRow ∨ d.fromCol ≠ d.toCol := not_and_or.mp hne
  obtain ⟨rowF2, hrowF2⟩ := nth_setCell_some hrowF d.toRow d.toCol (some sp)
  refine ⟨?_, ?_, ?_⟩
  · unfold Server1.moveBoard
    rw [getCell_setCell_ne none (hor.imp Ne.symm Ne.symm)]
    exact getCell_setCell_eq hrowT d.toCol (some sp)
  · unfold Server1.moveBoard
    exact getCell_setCell_eq hrowF2 d.fromCol none
  · intro r c hnf hnt
    unfold Server1.moveBoard
    rw [getCell_setCell_ne none (not_and_or.mp hnf), getCell_setCell_ne (some sp) (not_and_or.mp hnt)]

/-- C7: on the part_001 server, a RED cannon capture is accepted at any
straight-line geometry with exactly one screen (that is what
cannonCanCapture being true means, by c8): whenever the requester on
turn is bound to RED and owns a face-up RED CANNON, and the target cell
holds a face-up BLACK piece with cannonCanCapture true between the two
cells — with no adjacency requirement — the move is accepted, the BLACK
piece is removed, and the CANNON occupies the target cell.  The concrete
(0,0)/(0,1)/(0,2) scenario of the claim is this statement's witness. -/
theorem c7_cannon_capture_accepted :
    ∀ (s : Server1.ServerState) (me : String) (d : Server1.MoveData) (sp tp : Piece),
      s.game.playerTurn = some me →
      Server1.pcGet s.playerColors me = some .red →
      getCell s.game.board d.fromRow d.fromCol = some sp →
      sp.ptype = .CANNON → sp.color = .red → sp.faceUp = true →
      getCell s.game.board d.toRow d.toCol = some tp →
      tp.faceUp = true → tp.color = .black →
      cannonCanCapture s.game.board d.fromRow d.fromCol d.toRow d.toCol = true →
      (Server1.serverMove s me d).valid = true ∧
      getCell (Server1.serverMove s me d).st.game.board d.toRow d.toCol = some sp ∧
      getCell (Server1.serverMove s me d).st.game.board d.fromRow d.fromCol = none := by
  intro s me d sp tp hpt hpc hsp htype hcolor hface htp htf htc hcc
  have hnrev : ¬ Server1.isReveal d := by
    rintro ⟨h1, h2⟩
    rw [h1, h2] at hcc
    rw [cannonCanCapture_same_cell] at hcc
    exact absurd hcc (by simp)
  have hne : ¬ (d.fromRow = d.toRow ∧ d.fromCol = d.toCol) := hnrev
  have hgate : sp.faceUp = true ∧ Server1.pcGet s.playerColors me = some sp.color ∧
      s.game.playerTurn = some me := ⟨hface, by rw [hcolor]; exact hpc, hpt⟩
  have hcap : tp.faceUp = true ∧ tp.color ≠ sp.color :=
    ⟨htf, by rw [htc, hcolor]; simp⟩
  have hbr : Server1.regularMoveBranch s me d = some
      { st := { s with game := { s.game with board := Server1.moveBoard s.game.board d sp } }
        firstPiece := none
        captured := some tp } := by
    simp only [Server1.regularMoveBranch, hsp, htp]
    rw [if_pos hgate, if_pos htype, if_pos hcap, if_pos hcc]
  have hnfr : ¬ (Server1.isReveal d ∧ s.game.firstPieceRevealed = false) := fun h => hnrev h.1
  have hbo : Server1.moveBranch s me d = some
      { st := { s with game := { s.game with board := Server1.moveBoard s.game.board d sp } }
        firstPiece := none
        captured := some tp } := by
    simp only [Server1.moveBranch, if_neg hnfr, if_neg hnrev, hbr]
  have hcond : ¬ (s.game.playerTurn ≠ some me) := fun h => h hpt
  have hstres : (Server1.serverMove s me d).st = Server1.finishValid
      { s with game := { s.game with board := Server1.moveBoard s.game.board d sp } } me := by
    simp only [Server1.serverMove, if_neg hcond, hbo]
  have hv : (Server1.serverMove s me d).valid = true := by
    simp only [Server1.serverMove, if_neg hcond, hbo]
  obtain ⟨rowF, hrowF, -⟩ := getCell_some_row hsp
  obtain ⟨rowT, hrowT, -⟩ := getCell_some_row htp
  obtain ⟨hto, hfrom, -⟩ := @moveBoard_getCell _ _ sp _ _ hrowF hrowT hne
  refine ⟨hv, ?_, ?_⟩
  · rw [hstres]
    exact hto
  · rw [hstres]
    exact hfrom

/-- C7, witness: the claim's concrete scenario — RED CANNON at (0,0),
a (face-down BLACK) screen at (0,1), a face-up BLACK SOLDIER at (0,2) —
on the part_001 server with A bound to RED and on turn: the distance-2
move (0,0)→(0,2) is accepted, the cannon lands on (0,2) and (0,0) is
cleared. -/
theorem c7_cannon_capture_accepted_witness :
    (Server1.serverMove cannonState "A" { fromRow := 0, fromCol := 0, toRow := 0, toCol := 2 }).valid = true ∧
    getCell (Server1.serverMove cannonState "A"
        { fromRow := 0, fromCol := 0, toRow := 0, toCol := 2 }).st.game.board 0 2
      = mkP .CANNON .red true ∧
    getCell (Server1.serverMove cannonState "A"
        { fromRow := 0, fromCol := 0, toRow := 0, toCol := 2 }).st.game.board 0 0 = none :=
  c7_cannon_capture_accepted cannonState "A" { fromRow := 0, fromCol := 0, toRow := 0, toCol := 2 }
    { ptype := .CANNON, color := .red, rank := 2, faceUp := true }
    { ptype := .SOLDIER, color := .black, rank := 1, faceUp := true }
    (by decide) (by decide) (by decide) (by decide) (by decide) (by decide)
    (by decide) (by decide) (by decide) (by decide)

theorem regularMoveBranch_board {s : Server1.ServerState} {me : String}
    {d : Server1.MoveData} {out : Server1.BranchOut}
    (h : Server1.regularMoveBranch s me d = some out) :
    ∃ sp, getCell s.game.board d.fromRow d.fromCol = some sp ∧
      out.st.game.board = Server1.moveBoard s.game.board d sp := by
  cases heq : getCell s.game.board d.fromRow d.fromCol with
  | none =>
    simp only [Server1.regularMoveBranch, heq] at h
    exact absurd h (by simp)
  | some sp =>
    simp only [Server1.regularMoveBranch, heq] at h
    refine ⟨sp, rfl, ?_⟩
    split at h
    · split at h
      · split at h
        · split at h
          · split at h
            · rw [Option.some.injEq] at h
              subst h
              rfl
            · exact absurd h (by simp)
          · exact absurd h (by simp)
        · split at h
          · rw [Option.some.injEq] at h
            subst h
            rfl
          · exact absurd h (by simp)
      · split at h
        · split at h
          · rw [Option.some.injEq] at h
            subst h
            rfl
          · split at h
            · split at h
              · rw [Option.some.injEq] at h
                subst h
                rfl
              · exact absurd h (by simp)
            · exact absurd h (by simp)
        · exact absurd h (by simp)
    · exact absurd h (by simp)

theorem nth_of_lt {α : Type} : ∀ (l : List α) (n : Nat), n < l.length → ∃ a, nth l n = some a := by
  intro l
  induction l with
  | nil => intro n h; simp at h
  | cons x xs ih =>
    intro n h
    cases n with
    | zero => exact ⟨x, rfl⟩
    | succ m =>
      simp only [List.length_cons, Nat.succ_lt_succ_iff] at h
      exact ih m h

theorem boardWF_row {b : Board} (h : boardWF b) {r : Nat} (hr : r < 4) :
    ∃ row, nth b r = some row := by
  obtain ⟨hlen, -⟩ := h
  exact nth_of_lt b r (by rw [hlen]; exact hr)

/-- C10: for every accepted non-reveal move of the part_001 server from
(fromRow,fromCol) to (toRow,toCol) on a well-formed board, the resulting
board holds at the target cell exactly the option-cell that was at the
source (the piece with type, color, rank and faceUp unchanged), the
source cell is empty, and every other cell is unchanged — a captured
piece is destroyed in place, never relocated. -/
theorem c10_move_frame :
    ∀ (s : Server1.ServerState) (me : String) (d : Server1.MoveData),
      boardWF s.game.board →
      d.toRow < 4 →
      ¬ Server1.isReveal d →
      (Server1.serverMove s me d).valid = true →
      getCell (Server1.serverMove s me d).st.game.board d.toRow d.toCol
        = getCell s.game.board d.fromRow d.fromCol ∧
      getCell (Server1.serverMove s me d).st.game.board d.fromRow d.fromCol = none ∧
      (∀ r c, ¬ (r = d.fromRow ∧ c = d.fromCol) → ¬ (r = d.toRow ∧ c = d.toCol) →
        getCell (Server1.serverMove s me d).st.game.board r c = getCell s.game.board r c) := by
  intro s me d hwf htr4 hnrev hv
  by_cases hpt : s.game.playerTurn = some me
  · have hcond : ¬ (s.game.playerTurn ≠ some me) := fun h => h hpt
    cases hbo : Server1.moveBranch s me d with
    | none =>
      have : (Server1.serverMove s me d).valid = false := by
        simp only [Server1.serverMove, if_neg hcond, hbo]
      rw [this] at hv
      exact absurd hv (by simp)
    | some out =>
      have hnfr : ¬ (Server1.isReveal d ∧ s.game.firstPieceRevealed = false) :=
        fun h => hnrev h.1
      have hreg : Server1.regularMoveBranch s me d = some out := by
        simp only [Server1.moveBranch, if_neg hnfr, if_neg hnrev] at hbo
        exact hbo
      obtain ⟨sp, heq, hb⟩ := regularMoveBranch_board hreg
      obtain ⟨rowF, hrowF, -⟩ := getCell_some_row heq
      obtain ⟨rowT, hrowT⟩ := boardWF_row hwf htr4
      have hne : ¬ (d.fromRow = d.toRow ∧ d.fromCol = d.toCol) := hnrev
      obtain ⟨hto, hfrom, hframe⟩ := @moveBoard_getCell _ _ sp _ _ hrowF hrowT hne
      have hstres : (Server1.serverMove s me d).st = Server1.finishValid out.st me := by
        simp only [Server1.serverMove, if_neg hcond, hbo]
      have hboard : (Server1.serverMove s me d).st.game.board
          = Server1.moveBoard s.game.board d sp := by
        rw [hstres]
        exact hb
      refine ⟨?_, ?_, ?_⟩
      · rw [hboard, heq]
        exact hto
      · rw [hboard]
        exact hfrom
      · intro r c h1 h2
        rw [hboard]
        exact hframe r c h1 h2
  · have : (Server1.serverMove s me d).valid = false := by
      simp only [Server1.serverMove, if_pos hpt]
    rw [this] at hv
    exact absurd hv (by simp)

/-- C10, witness: the frame statement at the accepted cannon capture
(0,0)→(0,2) of `cannonState`: the cannon's cell content moves to (0,2),
(0,0) empties, and a sample untouched cell (0,1) keeps its piece. -/
theorem c10_move_frame_witness :
    getCell (Server1.serverMove cannonState "A"
        { fromRow := 0, fromCol := 0, toRow := 0, toCol := 2 }).st.game.board 0 2
      = getCell cannonState.game.board 0 0 ∧
    getCell (Server1.serverMove cannonState "A"
        { fromRow := 0, fromCol := 0, toRow := 0, toCol := 2 }).st.game.board 0 0 = none ∧
    getCell (Server1.serverMove cannonState "A"
        { fromRow := 0, fromCol := 0, toRow := 0, toCol := 2 }).st.game.board 0 1
      = getCell cannonState.game.board 0 1 :=
  have h := c10_move_frame cannonState "A" { fromRow := 0, fromCol := 0, toRow := 0, toCol := 2 }
    (by decide) (by decide) (by decide) (by decide)
  ⟨h.1, h.2.1, h.2.2 0 1 (by decide) (by decide)⟩

theorem capture_winner_aux (s : Banqi.BanqiState) (fr fc tr tc : Nat) (sp : Piece)
    (hsp : getCell s.board fr fc = some sp)
    (hrowT : ∃ rowT, nth s.board tr = some rowT)
    (hface : sp.faceUp = true)
    (hne : ¬ (fr = tr ∧ fc = tc))
    (s2 : Banqi.BanqiState)
    (hs2b : s2.board = Banqi.moveBoardB s.board fr fc tr tc)
    (hb : Banqi.faceUpCount s2.board .black = 0) :
    (Banqi.checkGameOver s2).winner = some .red ∧ (Banqi.checkGameOver s2).gameActive = false := by
  obtain ⟨rowF, hrowF, -⟩ := getCell_some_row hsp
  obtain ⟨rowT, hrowT⟩ := hrowT
  have hmb : Banqi.moveBoardB s.board fr fc tr tc
      = Server1.moveBoard s.board { fromRow := fr, fromCol := fc, toRow := tr, toCol := tc } sp := by
    unfold Banqi.moveBoardB Server1.moveBoard
    rw [hsp]
  have hto : getCell s2.board tr tc = some sp := by
    rw [hs2b, hmb]
    exact (moveBoard_getCell hrowF hrowT hne).1
  have hcol : sp.color = .red := by
    have hnb := faceUpCount_zero hb hto hface
    cases hc : sp.color
    · rfl
    · exact absurd hc hnb
  exact checkGameOver_black_zero s2 tr tc sp hto hface hcol hb

/-- C1 (amended): in the part_002 engine (the only rendering with any
terminal detection; the servers perform none), the terminal check runs
after accepted relocations and captures except cannon moves onto empty
cells, and never after reveals.  When it does run right after a capture
that leaves BLACK with zero face-up pieces — in particular when the last
BLACK piece anywhere has just been captured — the winner is RED and the
game deactivates immediately; and an accepted reveal never changes
winner or gameActive. -/
theorem c1_terminal_after_capture :
    (∀ (s : Banqi.BanqiState) (fr fc tr tc : Nat) (s' : Banqi.BanqiState),
      Banqi.movePiece s fr fc tr tc = some s' →
      (getCell s.board tr tc).isSome = true →
      Banqi.faceUpCount s'.board .black = 0 →
      s'.winner = some .red ∧ s'.gameActive = false) ∧
    (∀ (s : Banqi.BanqiState) (r c : Nat) (s' : Banqi.BanqiState),
      Banqi.revealPiece s r c = some s' →
      s'.winner = s.winner ∧ s'.gameActive = s.gameActive) := by
  constructor
  · intro s fr fc tr tc s' hmv htgt hb
    cases htp : getCell s.board tr tc with
    | none =>
      rw [htp] at htgt
      exact absurd htgt (by simp)
    | some tp =>
      cases hsp : getCell s.board fr fc with
      | none =>
        simp only [Banqi.movePiece, hsp] at hmv
        split at hmv
        · exact absurd hmv (by simp)
        · exact absurd hmv (by simp)
      | some sp =>
        simp only [Banqi.movePiece, hsp, htp] at hmv
        split at hmv
        · exact absurd hmv (by simp)
        · split at hmv
          · exact absurd hmv (by simp)
          · rename_i hfaceF
            split at hmv
            · exact absurd hmv (by simp)
            · split at hmv
              · exact absurd hmv (by simp)
              · rename_i horthF
                have hface : sp.faceUp = true := by
                  cases h2 : sp.faceUp
                  · exact absurd h2 hfaceF
                  · rfl
                have horth : isOrthogonalMove fr fc tr tc = true := by
                  cases h2 : isOrthogonalMove fr fc tr tc
                  · exact absurd h2 horthF
                  · rfl
                have hne : ¬ (fr = tr ∧ fc = tc) := by
                  rcases isOrthogonalMove_ne horth with h2 | h2
                  · exact fun hh => h2 hh.1.symm
                  · exact fun hh => h2 hh.2.symm
                have hrowT : ∃ rowT, nth s.board tr = some rowT := by
                  obtain ⟨rowT, h2, -⟩ := getCell_some_row htp
                  exact ⟨rowT, h2⟩
                split at hmv
                · -- CANNON: handleCannonMove, target occupied
                  simp only [Banqi.handleCannonMove, htp] at hmv
                  split at hmv
                  · exact absurd hmv (by simp)
                  · split at hmv
                    · exact absurd hmv (by simp)
                    · split at hmv
                      · exact absurd hmv (by simp)
                      · split at hmv
                        · exact absurd hmv (by simp)
                        · rw [Option.some.injEq] at hmv
                          subst hmv
                          rw [checkGameOver_board] at hb
                          exact capture_winner_aux s fr fc tr tc sp hsp hrowT hface hne _ rfl hb
                · -- non-cannon capture
                  split at hmv
                  · exact absurd hmv (by simp)
                  · split at hmv
                    · exact absurd hmv (by simp)
                    · split at hmv
                      · exact absurd hmv (by simp)
                      · rw [Option.some.injEq] at hmv
                        subst hmv
                        rw [checkGameOver_board] at hb
                        exact capture_winner_aux s fr fc tr tc sp hsp hrowT hface hne _ rfl hb
  · intro s r c s' hrv
    simp only [Banqi.revealPiece] at hrv
    split at hrv
    · exact absurd hrv (by simp)
    · split at hrv
      · exact absurd hrv (by simp)
      · split at hrv
        · exact absurd hrv (by simp)
        · split at hrv
          · rw [Option.some.injEq] at hrv
            subst hrv
            exact ⟨rfl, rfl⟩
          · rw [Option.some.injEq] at hrv
            subst hrv
            exact ⟨rfl, rfl⟩

/-- C1, witness: from `lastBlackState`, RED's soldier captures BLACK's
last piece (the general at (0,1)); the capture is accepted, zero BLACK
face-up pieces remain, and the theorem yields winner = RED with the game
over; plus a concrete reveal leaving winner and gameActive untouched. -/
theorem c1_terminal_after_capture_witness :
    Banqi.movePiece lastBlackState 0 0 0 1 = some lastBlackAfter ∧
    Banqi.faceUpCount lastBlackAfter.board .black = 0 ∧
    lastBlackAfter.winner = some .red ∧
    lastBlackAfter.gameActive = false ∧
    banqiRevealAfter.winner = banqiRevealState.winner ∧
    banqiRevealAfter.gameActive = banqiRevealState.gameActive :=
  have h := c1_terminal_after_capture.1 lastBlackState 0 0 0 1 lastBlackAfter
    (by decide) (by decide) (by decide)
  have h2 := c1_terminal_after_capture.2 banqiRevealState 0 1 banqiRevealAfter (by decide)
  ⟨by decide, by decide, h.1, h.2, h2.1, h2.2⟩
